import Mathlib

/-!
Verification development for the `salim/enricher` message pipeline.

We give a shallow embedding of the pipeline's Python sources:

* `rule_based_brand_extractor.py` — the rule-based brand cascade;
* `normalizer.py`   — normalization of price / promo / store envelopes;
* `enricher.py`     — default filling and brand enrichment (in-place dict
  mutation is modeled by threading the mutated value; an exception that
  escapes a mutating loop carries the partially mutated state, exactly as a
  Python dict mutated in place retains it when an exception unwinds);
* `queue_consumer.py` — the consume / ack / DLQ control loop, with the
  external collaborators (json.loads, the validator, the broker and the
  database) abstracted as oracle parameters, and
* `database.py`     — the two upsert statements, over an abstract column
  value type.

Python values are modeled by `JVal` (JSON-like values); Python dicts by
association lists (`Assoc`) with Python's `dict.get` / assignment semantics
(`alookup`, `aset`).  Python `float`/`int`/`bool` coercions are modeled over
`Rat`/`Int`/`Bool` (`toFloatE`, `toIntE`, `pyTruthy`); string lowering models
`str.lower` on the ASCII range (the brand dictionaries contain no cased
non-ASCII characters).
-/

/-- A JSON-like value: the shape of data produced by `json.loads` and passed
between the pipeline stages. -/
inductive JVal where
  | null
  | bool (b : Bool)
  | num (q : Rat)
  | str (s : String)
  | arr (xs : List JVal)
  | obj (kvs : List (String × JVal))

/-- A Python dict with string keys, as an association list in insertion
order (Python dicts preserve insertion order). -/
abbrev Assoc := List (String × JVal)

/-- Lookup of a key in a dict (`d[k]` / `d.get(k)` when present). -/
def alookup : Assoc → String → Option JVal
  | [], _ => none
  | (k', v') :: rest, k => if k' = k then some v' else alookup rest k

/-- Python dict assignment `d[k] = v`: overwrite in place if the key exists,
otherwise append (insertion order semantics). -/
def aset : Assoc → String → JVal → Assoc
  | [], k, v => [(k, v)]
  | (k', v') :: rest, k, v =>
    if k' = k then (k', v) :: rest else (k', v') :: aset rest k v

/-- Python `d.get(k, default)`. -/
def pyGetD (d : Assoc) (k : String) (dflt : JVal) : JVal :=
  (alookup d k).getD dflt

/-- Python `d.get(k)` (default `None`). -/
def pyGet (d : Assoc) (k : String) : JVal :=
  pyGetD d k .null

/-- Python truthiness of a value (`bool(v)` / `if v:`). -/
def pyTruthy : JVal → Bool
  | .null => false
  | .bool b => b
  | .num q => if q = 0 then false else true
  | .str s => if s = "" then false else true
  | .arr xs => !xs.isEmpty
  | .obj kvs => !kvs.isEmpty

/-- Calling `.get` on a value: succeeds only on a dict, any other value
raises `AttributeError` (as `None.get`, `list.get`, `str.get`, ... do). -/
def asObjE : JVal → Except String Assoc
  | .obj kvs => .ok kvs
  | _ => .error "AttributeError"

/-- The normalizer's singleton-vs-list repair:
`if not isinstance(x, list): x = [x]`. -/
def pyListify : JVal → List JVal
  | .arr xs => xs
  | v => [v]

/-- ASCII lowercase of one character (models `str.lower` on the ASCII
range; the characters relevant to the brand dictionaries are ASCII or
uncased Hebrew). -/
def lowerChar (c : Char) : Char :=
  if 'A' ≤ c ∧ c ≤ 'Z' then Char.ofNat (c.toNat + 32) else c

/-- ASCII uppercase of one character. -/
def upperChar (c : Char) : Char :=
  if 'a' ≤ c ∧ c ≤ 'z' then Char.ofNat (c.toNat - 32) else c

/-- Model of Python `str.lower()`. -/
def lowerStr (s : String) : String :=
  String.mk (s.data.map lowerChar)

/-- Whitespace characters stripped by Python `str.strip()`. -/
def isPySpace (c : Char) : Bool :=
  c = ' ' ∨ c = '\t' ∨ c = '\n' ∨ c = '\r' ∨ c = '\x0b' ∨ c = '\x0c'

/-- Model of Python `str.strip()`. -/
def stripStr (s : String) : String :=
  String.mk (((s.data.dropWhile isPySpace).reverse.dropWhile isPySpace).reverse)

/-- Whether `p` is a leading segment of `l`. -/
def startsList : List Char → List Char → Bool
  | [], _ => true
  | _ :: _, [] => false
  | p :: ps, c :: cs => p = c && startsList ps cs

/-- Whether `pat` occurs as a contiguous segment of `hay`
(Python `pat in hay` on strings). -/
def containsSub (hay pat : List Char) : Bool :=
  match hay with
  | [] => pat.isEmpty
  | _ :: rest => startsList pat hay || containsSub rest pat

/-- Python substring test `pat in hay`. -/
def strContains (hay pat : String) : Bool :=
  containsSub hay.data pat.data

/-- Numeric value of a digit run, as a natural number. -/
def digitsVal (l : List Char) : Nat :=
  l.foldl (fun n c => n * 10 + (c.toNat - 48)) 0

/-- Parse an unsigned decimal literal (digit run with an optional single
point, at least one digit overall), the core of Python `float(str)`. -/
def parseUnsigned (l : List Char) : Option Rat :=
  let intPart := l.takeWhile Char.isDigit
  let rest := l.dropWhile Char.isDigit
  match rest with
  | [] => if intPart.isEmpty then none else some (mkRat (digitsVal intPart : Nat) 1)
  | '.' :: frac =>
    if frac.all Char.isDigit ∧ ¬ (intPart.isEmpty ∧ frac.isEmpty) then
      some (mkRat ((digitsVal intPart * 10 ^ frac.length + digitsVal frac : Nat) : Int)
        (10 ^ frac.length))
    else none
  | _ => none

/-- Parse a signed decimal literal. -/
def parseDecChars : List Char → Option Rat
  | '-' :: rest => (parseUnsigned rest).map Neg.neg
  | '+' :: rest => parseUnsigned rest
  | l => parseUnsigned l

/-- Model of Python `float(str)` (surrounding whitespace stripped; plain
decimal literals; anything else raises `ValueError`). -/
def parseFloatStr (s : String) : Option Rat :=
  parseDecChars (stripStr s).data

/-- Parse a signed integer literal, the core of Python `int(str)`. -/
def parseIntChars : List Char → Option Int
  | '-' :: rest =>
    if rest.isEmpty ∨ ¬ rest.all Char.isDigit then none
    else some (-(digitsVal rest : Int))
  | '+' :: rest =>
    if rest.isEmpty ∨ ¬ rest.all Char.isDigit then none
    else some ((digitsVal rest : Int))
  | l =>
    if l.isEmpty ∨ ¬ l.all Char.isDigit then none
    else some ((digitsVal l : Int))

/-- Truncation of a rational toward zero, as Python `int(float)` does. -/
def ratTrunc (q : Rat) : Int :=
  Int.tdiv q.num (q.den : Int)

/-- Model of Python `float(v)`: numbers pass through, booleans become 0/1,
strings are parsed (raising `ValueError` when unparseable), anything else
raises `TypeError`. -/
def toFloatE : JVal → Except String Rat
  | .num q => .ok q
  | .bool b => .ok (if b then 1 else 0)
  | .str s =>
    match parseFloatStr s with
    | some q => .ok q
    | none => .error "ValueError: could not convert string to float"
  | _ => .error "TypeError: float() argument"

/-- Model of Python `int(v)`: numbers truncate toward zero, booleans become
0/1, strings are parsed as integer literals (raising `ValueError` when
unparseable), anything else raises `TypeError`. -/
def toIntE : JVal → Except String Int
  | .num q => .ok (ratTrunc q)
  | .bool b => .ok (if b then 1 else 0)
  | .str s =>
    match parseIntChars (stripStr s).data with
    | some n => .ok n
    | none => .error "ValueError: invalid literal for int"
  | _ => .error "TypeError: int() argument"

/-- A brand guess, the return shape of
`RuleBasedBrandExtractor.extract_brand_with_rules`. -/
structure BrandGuess where
  brand : Option String
  confidence : Rat
  source_field : Option String
  extraction_method : String
  deriving DecidableEq

/-- The curated Hebrew brand dictionary `self.hebrew_brands`, in source
(insertion) order: canonical brand to surface-form patterns. -/
def hebrew_brands : List (String × List String) :=
  [ ("תנובה", ["תנובה", "tnuva"])
  , ("אסם", ["אסם", "osem"])
  , ("שטראוס", ["שטראוס", "strauss"])
  , ("עלית", ["עלית", "elit"])
  , ("טרה", ["טרה", "tera"])
  , ("יטבתה", ["יטבתה"])
  , ("גד", ["גד", "gad"])
  , ("תרה", ["תרה"])
  , ("שופרסל", ["שופרסל", "shufersal"])
  , ("קוקה קולה", ["קוקה קולה", "coca cola", "coke"])
  , ("פפסי", ["פפסי", "pepsi"])
  , ("נסטלה", ["נסטלה", "nestle", "nestlé"])
  , ("שוופס", ["שוופס", "schweppes"])
  , ("ספרייט", ["ספרייט", "sprite"])
  , ("פנטה", ["פנטה", "fanta"])
  , ("מילקי", ["מילקי", "milky"])
  , ("ביסלי", ["ביסלי", "bissli"])
  , ("במבה", ["במבה", "bamba"])
  , ("אפרסק", ["אפרסק"])
  , ("יפו", ["יפו", "jaffa"])
  , ("פריגת", ["פריגת", "prigat"])
  , ("רמי לוי", ["רמי לוי", "rami levy"])
  , ("מגה", ["מגא", "mega"])
  , ("יוניליוור", ["יוניליוור", "unilever"])
  , ("פרוקטר", ["פרוקטר", "procter"]) ]

/-- The English brand dictionary `self.english_brands`, in source order. -/
def english_brands : List (String × List String) :=
  [ ("Coca-Cola", ["coca cola", "coke", "קוקה קולה"])
  , ("Pepsi", ["pepsi", "פפסי"])
  , ("Nestle", ["nestle", "nestlé", "נסטלה"])
  , ("Nutella", ["nutella", "נוטלה"])
  , ("Kellogg", ["kellogg", "קלוג"])
  , ("Heinz", ["heinz", "היינץ"])
  , ("Pringles", ["pringles", "פרינגלס"])
  , ("Oreo", ["oreo", "אוראו"])
  , ("KitKat", ["kitkat", "kit kat", "קיט קט"])
  , ("Snickers", ["snickers", "סניקרס"])
  , ("Mars", ["mars", "מארס"])
  , ("Twix", ["twix", "טוויקס"])
  , ("Sprite", ["sprite", "ספרייט"])
  , ("Fanta", ["fanta", "פנטה"])
  , ("Red Bull", ["red bull", "רד בול"])
  , ("Monster", ["monster", "מונסטר"]) ]

/-- Scan a brand dictionary in order; for each brand try its patterns in
order and return the first `(brand, pattern)` whose lowered pattern occurs
in the combined text (the two `for` loops of the dictionary stage). -/
def scanDict (dict : List (String × List String)) (combined : String) :
    Option (String × String) :=
  match dict with
  | [] => none
  | (b, pats) :: rest =>
    match pats.find? (fun p => strContains combined (lowerStr p)) with
    | some p => some (b, p)
    | none => scanDict rest combined

/-- Build the guess returned by a dictionary-stage hit: confidence 0.9 when
the pattern occurs in the (lowered) item name, else 0.7; source is
`item_name` when the pattern is in the name, else `manufacturer` when it is
in the manufacturer, else `description` unconditionally. -/
def mkDictGuess (method : String) (b p : String) (lname lmanu : String) :
    BrandGuess :=
  { brand := some b
  , confidence := if strContains lname (lowerStr p) then mkRat 9 10 else mkRat 7 10
  , source_field := some
      (if strContains lname (lowerStr p) then "item_name"
       else if strContains lmanu (lowerStr p) then "manufacturer"
       else "description")
  , extraction_method := method }

/-- Python `\w` word character, for the `re.sub(r'[^\w\s]', ...)` and
`re.findall(r'[\w]+', ...)` calls: ASCII alphanumerics, underscore, and
(approximating the Unicode word class for the scripts in play, in which
Hebrew letters are word characters) any non-ASCII character. -/
def isWordChar (c : Char) : Bool :=
  c.isAlphanum || c = '_' || c.toNat ≥ 128

/-- Model of Python `str.title()`: the first character of each maximal run
of cased (here: ASCII-alphabetic) characters is uppercased, the rest of the
run lowercased; uncased characters separate runs and pass through. -/
def pyTitleGo : Bool → List Char → List Char
  | _, [] => []
  | prevCased, c :: cs =>
    let cased := c.isAlpha
    let c' := if cased && !prevCased then upperChar c
              else if cased then lowerChar c else c
    c' :: pyTitleGo cased cs

/-- Python `str.title()`. -/
def pyTitle (s : String) : String :=
  String.mk (pyTitleGo false s.data)

/-- Maximal runs of word characters, as `re.findall(r'[\w]+', s)` returns
them. -/
def wordRuns : List Char → List String
  | [] => []
  | c :: cs =>
    let rest := wordRuns cs
    if isWordChar c then
      match cs with
      | c2 :: _ =>
        if isWordChar c2 then
          match rest with
          | r :: rs => String.mk (c :: r.data) :: rs
          | [] => [String.mk [c]]
        else String.mk [c] :: rest
      | [] => [String.mk [c]]
    else rest

/-- The stopword list of the first-word stage. -/
def stopWords : List String := ["ליטר", "גרם", "יחידה", "חבילה", "קופסה"]

/-- The "unknown" sentinels recognized by the extractor. -/
def unknownSentinels : List String := ["לא ידוע", "unknown", ""]

/-- The cleaned manufacturer name of stage 3:
`re.sub(r'[^\w\s]', '', manufacturer).strip()`. -/
def cleanManufacturer (lmanu : String) : String :=
  stripStr (String.mk (lmanu.data.filter (fun c => isWordChar c || isPySpace c)))

/-- Stage 3 of the cascade: the manufacturer fallback.  Returns `none` when
the stage does not produce a guess (empty or sentinel manufacturer, or a
cleaned name of length at most 2), in which case the cascade continues. -/
def manufacturerStage (lmanu : String) : Option BrandGuess :=
  if lmanu ≠ "" ∧ lmanu ∉ unknownSentinels then
    if (cleanManufacturer lmanu).length > 2 then
      some { brand := some (pyTitle (cleanManufacturer lmanu))
           , confidence := mkRat 6 10
           , source_field := some "manufacturer"
           , extraction_method := "rule_based_manufacturer" }
    else none
  else none

/-- Stage 4 of the cascade: the first meaningful word of the item name. -/
def firstWordStage (lname : String) : Option BrandGuess :=
  if lname ≠ "" then
    match (wordRuns lname.data).find?
        (fun w => w.length > 2 && w ∉ stopWords) with
    | some w =>
      some { brand := some (pyTitle w), confidence := mkRat 4 10
           , source_field := some "item_name"
           , extraction_method := "rule_based_first_word" }
    | none => none
  else none

/-- The combined search text: the lowered item name, manufacturer and
description joined with single spaces, stripped. -/
def combinedText (name manu desc : String) : String :=
  stripStr (lowerStr name ++ " " ++ lowerStr manu ++ " " ++ lowerStr desc)

/-- Embedding of `RuleBasedBrandExtractor.extract_brand_with_rules`, over
the already-extracted item name, manufacturer and description strings (the
source lowers each and concatenates them with single spaces, then runs the
four-stage cascade). -/
def extract_brand_with_rules (name manu desc : String) : BrandGuess :=
  if combinedText name manu desc = "" ∨
     combinedText name manu desc ∈ ["לא ידוע", "unknown", ""] then
    { brand := none, confidence := 0, source_field := none
    , extraction_method := "rule_based_no_data" }
  else
    match scanDict hebrew_brands (combinedText name manu desc) with
    | some (b, p) => mkDictGuess "rule_based_hebrew" b p (lowerStr name) (lowerStr manu)
    | none =>
      match scanDict english_brands (combinedText name manu desc) with
      | some (b, p) => mkDictGuess "rule_based_english" b p (lowerStr name) (lowerStr manu)
      | none =>
        match manufacturerStage (lowerStr manu) with
        | some g => g
        | none =>
          match firstWordStage (lowerStr name) with
          | some g => g
          | none =>
            { brand := none, confidence := 0, source_field := none
            , extraction_method := "rule_based_failed" }

/-- A normalized item, the fixed-key dict built per item by
`DataNormalizer.normalize_price_data`. -/
structure NItem where
  item_code : JVal
  item_name : JVal
  item_price : Rat
  item_unit : JVal
  item_unit_measure : JVal
  item_quantity : Rat
  item_manufacturer : JVal
  item_description : JVal
  item_category : JVal
  item_subcategory : JVal
  item_brand : JVal
  item_promotion : Bool
  item_promotion_price : Rat
  item_promotion_description : JVal
  manufacture_country : JVal
  last_update_date : JVal
  last_update_time : JVal

/-- The normalized output of the price branch. -/
structure NPrice where
  chain_id : JVal
  store_id : JVal
  items : List NItem

/-- A normalized promotion item. -/
structure NPromoItem where
  item_code : JVal
  item_type : JVal
  is_gift_item : Bool

/-- A normalized promotion. -/
structure NPromo where
  promotion_id : JVal
  promotion_description : JVal
  promotion_update_date : JVal
  promotion_start_date : JVal
  promotion_end_date : JVal
  discounted_price : Rat
  min_qty : Rat
  reward_type : JVal
  allow_multiple_discounts : Bool
  items : List NPromoItem

/-- The normalized output of the promo branch. -/
structure NPromoData where
  chain_id : JVal
  store_id : JVal
  promotions : List NPromo

/-- A normalized store. -/
structure NStore where
  sub_chain_id : JVal
  sub_chain_name : JVal
  store_id : JVal
  bikoret_no : JVal
  store_type : Int
  store_name : JVal
  address : JVal
  city : JVal
  zip_code : JVal
  last_update_date : JVal
  last_update_time : JVal

/-- The normalized output of the store branch. -/
structure NStoreData where
  chain_id : JVal
  chain_name : JVal
  stores : List NStore

/-- Extraction of a nested collection: `d.get(outer, {}).get(inner, [])`
followed by the singleton-vs-list repair.  Raises when `d[outer]` exists
but is not a dict. -/
def nestedList (d : Assoc) (outer inner : String) :
    Except String (List JVal) := do
  let o ← asObjE (pyGetD d outer (.obj []))
  pure (pyListify (pyGetD o inner (.arr [])))

/-- The per-item body of the loop in `normalize_price_data`
(`lastUpdateTime` is the document-level `data.get('LastUpdateTime')`). -/
def normPriceItem (lastUpdateTime : JVal) (item : JVal) :
    Except String NItem := do
  let it ← asObjE item
  let price ← toFloatE (pyGetD it "ItemPrice" (.num 0))
  let qty ← toFloatE (pyGetD it "Quantity" (.num 0))
  let promoPrice ← toFloatE (pyGetD it "ItemPromotionPrice" (.num 0))
  pure
    { item_code := pyGet it "ItemCode"
    , item_name := pyGet it "ItemName"
    , item_price := price
    , item_unit := pyGet it "UnitQty"
    , item_unit_measure := pyGet it "UnitOfMeasure"
    , item_quantity := qty
    , item_manufacturer := pyGet it "ManufacturerName"
    , item_description := pyGet it "ManufacturerItemDescription"
    , item_category := pyGet it "ItemCategory"
    , item_subcategory := pyGet it "ItemSubCategory"
    , item_brand := pyGet it "ItemBrand"
    , item_promotion := pyTruthy (pyGetD it "ItemPromotion" (.bool false))
    , item_promotion_price := promoPrice
    , item_promotion_description := pyGet it "ItemPromotionDescription"
    , manufacture_country := pyGet it "ManufactureCountry"
    , last_update_date := pyGet it "PriceUpdateDate"
    , last_update_time := lastUpdateTime }

/-- Embedding of `DataNormalizer.normalize_price_data`. -/
def normalize_price_data (d md : Assoc) : Except String NPrice := do
  let itemsData ← nestedList d "Items" "Item"
  let items ← itemsData.mapM (normPriceItem (pyGet d "LastUpdateTime"))
  pure
    { chain_id := pyGet d "ChainId"
    , store_id := pyGetD d "StoreId" (pyGetD md "store_id" (.str "unknown"))
    , items := items }

/-- The per-promotion-item body of the inner loop in
`normalize_promo_data`. -/
def normPromoItem (item : JVal) : Except String NPromoItem := do
  let it ← asObjE item
  pure
    { item_code := pyGet it "ItemCode"
    , item_type := pyGet it "ItemType"
    , is_gift_item := pyTruthy (pyGetD it "IsGiftItem" (.bool false)) }

/-- The per-promotion body of the loop in `normalize_promo_data`. -/
def normOnePromotion (p : JVal) : Except String NPromo := do
  let pr ← asObjE p
  let disc ← toFloatE (pyGetD pr "DiscountedPrice" (.num 0))
  let minq ← toFloatE (pyGetD pr "MinQty" (.num 0))
  let promoItemsData ← nestedList pr "PromotionItems" "Item"
  let items ← promoItemsData.mapM normPromoItem
  pure
    { promotion_id := pyGet pr "PromotionId"
    , promotion_description := pyGet pr "PromotionDescription"
    , promotion_update_date := pyGet pr "PromotionUpdateDate"
    , promotion_start_date := pyGet pr "PromotionStartDate"
    , promotion_end_date := pyGet pr "PromotionEndDate"
    , discounted_price := disc
    , min_qty := minq
    , reward_type := pyGet pr "RewardType"
    , allow_multiple_discounts :=
        pyTruthy (pyGetD pr "AllowMultipleDiscounts" (.bool false))
    , items := items }

/-- Embedding of `DataNormalizer.normalize_promo_data`. -/
def normalize_promo_data (d md : Assoc) : Except String NPromoData := do
  let promosData ← nestedList d "Promotions" "Promotion"
  let promotions ← promosData.mapM normOnePromotion
  pure
    { chain_id := pyGet d "ChainId"
    , store_id := pyGetD d "StoreId" (pyGetD md "store_id" (.str "unknown"))
    , promotions := promotions }

/-- The per-store body of the inner loop in `normalize_store_data` (`d` is
the document-level dict, `scA` the enclosing sub-chain dict). -/
def normOneStore (d scA : Assoc) (st : JVal) : Except String NStore := do
  let s ← asObjE st
  let stype ← toIntE (pyGetD s "StoreType" (.num 0))
  pure
    { sub_chain_id := pyGet scA "SubChainID"
    , sub_chain_name := pyGet scA "SubChainName"
    , store_id := pyGet s "StoreID"
    , bikoret_no := pyGet s "BikoretNo"
    , store_type := stype
    , store_name := pyGet s "StoreName"
    , address := pyGet s "Address"
    , city := pyGet s "City"
    , zip_code := pyGet s "ZipCode"
    , last_update_date := pyGet d "LastUpdateDate"
    , last_update_time := pyGet d "LastUpdateTime" }

/-- The per-sub-chain body of the outer loop in `normalize_store_data`. -/
def normSubChain (d : Assoc) (sc : JVal) : Except String (List NStore) := do
  let scA ← asObjE sc
  let storesData ← nestedList scA "Stores" "Store"
  storesData.mapM (normOneStore d scA)

/-- Embedding of `DataNormalizer.normalize_store_data` (the per-sub-chain
store lists are appended into one flat list, as the nested loops do). -/
def normalize_store_data (d _md : Assoc) : Except String NStoreData := do
  let subChains ← nestedList d "SubChains" "SubChain"
  let storeLists ← subChains.mapM (normSubChain d)
  pure
    { chain_id := pyGet d "ChainId"
    , chain_name := pyGet d "ChainName"
    , stores := storeLists.flatten }

/-- Stamping `processed_at` when absent or falsy, the first statement of
each `enrich_*` branch (`now` models `datetime.now().isoformat()`). -/
def stampProcessedAt (now : String) (m : Assoc) : Assoc :=
  if pyTruthy (pyGet m "processed_at") then m else aset m "processed_at" (.str now)

/-- An abstract brand-extractor backend: `enrich_item_with_brand` either
returns the (mutated) item or raises.  `DataEnricher` is constructed with
the ML backend, which is outside this repository; the rule-based backend
mutates the item in place and returns it. -/
def Extractor := JVal → Except Unit JVal

/-- The per-item body of the loop in `enrich_price_data`: default
`item_promotion` and `item_promotion_price` on falsy values, then call the
brand extractor when `item_brand` is falsy.  An `Except.error` result
carries the item in its state at the moment the exception unwinds: the
defaults have already been applied in place.  A non-dict element (as
produced, e.g., by iterating a dict of keys) raises at the first `.get`
with the element unchanged. -/
def enrichOneItem (ext : Extractor) (item : JVal) : Except JVal JVal :=
  match item with
  | .obj kvs =>
    let kvs := if pyTruthy (pyGet kvs "item_promotion") then kvs
               else aset kvs "item_promotion" (.bool false)
    let kvs := if pyTruthy (pyGet kvs "item_promotion_price") then kvs
               else aset kvs "item_promotion_price" (.num 0)
    if pyTruthy (pyGet kvs "item_brand") then .ok (.obj kvs)
    else
      match ext (.obj kvs) with
      | .ok item2 => .ok item2
      | .error _ => .error (.obj kvs)
  | other => .error other

/-- A `for` loop mutating each element of a list in place: on an exception
at some element, the elements already processed keep their mutated state
and the rest are untouched (the error value is the list's state). -/
def mutateLoop (f : JVal → Except JVal JVal) :
    List JVal → Except (List JVal) (List JVal)
  | [] => .ok []
  | x :: rest =>
    match f x with
    | .error x' => .error (x' :: rest)
    | .ok x' =>
      match mutateLoop f rest with
      | .ok r => .ok (x' :: r)
      | .error r => .error (x' :: r)

/-- Embedding of `DataEnricher.enrich_price_data`.  The `Except.error` case
is an exception unwinding out of the method; its value is the state of the
message at that moment (the `processed_at` stamp and all in-place item
mutations already applied).  In test mode the item list is truncated to its
first 20 entries and written back before the loop. -/
def enrich_price_data (ext : Extractor) (testMode : Bool) (now : String)
    (m : Assoc) : Except Assoc Assoc :=
  let m1 := stampProcessedAt now m
  match pyGetD m1 "items" (.arr []) with
  | .arr items =>
    let keep := if testMode && items.length > 20 then items.take 20 else items
    let m2 := if testMode && items.length > 20 then aset m1 "items" (.arr keep)
              else m1
    match mutateLoop (enrichOneItem ext) keep with
    | .ok its => .ok (aset m2 "items" (.arr its))
    | .error its => .error (aset m2 "items" (.arr its))
  | .obj kvs =>
    -- iterating a dict yields its keys; `len`/slicing on a dict in test
    -- mode raises; a nonempty dict raises at the first key's `.get`
    if testMode && kvs.length > 20 then .error m1
    else if kvs.isEmpty then .ok m1 else .error m1
  | .str s =>
    -- a string is sliceable and iterable; any character raises at `.get`
    let keep := if testMode && s.length > 20 then String.mk (s.data.take 20)
                else s
    let m2 := if testMode && s.length > 20 then aset m1 "items" (.str keep)
              else m1
    if keep = "" then .ok m2 else .error m2
  | _ => .error m1

/-- The per-promotion body of the loop in `enrich_promo_data`. -/
def enrichOnePromo (p : JVal) : Except JVal JVal :=
  match p with
  | .obj kvs =>
    let kvs := if pyTruthy (pyGet kvs "allow_multiple_discounts") then kvs
               else aset kvs "allow_multiple_discounts" (.bool false)
    let kvs := if pyTruthy (pyGet kvs "reward_type") then kvs
               else aset kvs "reward_type" (.str "1")
    .ok (.obj kvs)
  | other => .error other

/-- The per-store body of the loop in `enrich_store_data`: default falsy
`store_type` to `1` and falsy `city` to `"Unknown"`. -/
def enrichOneStore (st : JVal) : Except JVal JVal :=
  match st with
  | .obj kvs =>
    let kvs := if pyTruthy (pyGet kvs "store_type") then kvs
               else aset kvs "store_type" (.num 1)
    let kvs := if pyTruthy (pyGet kvs "city") then kvs
               else aset kvs "city" (.str "Unknown")
    .ok (.obj kvs)
  | other => .error other

/-- Shared shape of `enrich_promo_data` / `enrich_store_data`: stamp
`processed_at`, then mutate each element of `m[key]` in place. -/
def enrichListField (f : JVal → Except JVal JVal) (key : String)
    (now : String) (m : Assoc) : Except Assoc Assoc :=
  let m1 := stampProcessedAt now m
  match pyGetD m1 key (.arr []) with
  | .arr xs =>
    match mutateLoop f xs with
    | .ok r => .ok (aset m1 key (.arr r))
    | .error r => .error (aset m1 key (.arr r))
  | .obj kvs => if kvs.isEmpty then .ok m1 else .error m1
  | .str s => if s = "" then .ok m1 else .error m1
  | _ => .error m1

/-- Embedding of `DataEnricher.enrich_promo_data`. -/
def enrich_promo_data (now : String) (m : Assoc) : Except Assoc Assoc :=
  enrichListField enrichOnePromo "promotions" now m

/-- Embedding of `DataEnricher.enrich_store_data`. -/
def enrich_store_data (now : String) (m : Assoc) : Except Assoc Assoc :=
  enrichListField enrichOneStore "stores" now m

/-- Whether a tag value equals a given string under Python `==`. -/
def tagIs (v : JVal) (t : String) : Bool :=
  match v with
  | .str s => s = t
  | _ => false

/-- Resolution of the `try`/`except` in `enrich_message`: an exception from
a branch is caught and the message — in its state at that moment — is
returned. -/
def catchEnrich (e : Except Assoc Assoc) : Assoc :=
  match e with
  | .ok r => r
  | .error r => r

/-- Embedding of `DataEnricher.enrich_message`: dispatch on
`normalized_message['type']` (a missing key raises `KeyError`, caught by
the handler, which returns the input as is); every exception from a branch
is caught and the message state returned (fail-open). -/
def enrich_message (ext : Extractor) (testMode : Bool) (now : String)
    (m : Assoc) : Assoc :=
  match alookup m "type" with
  | none => m
  | some v =>
    if tagIs v "price_data" then catchEnrich (enrich_price_data ext testMode now m)
    else if tagIs v "promo_data" then catchEnrich (enrich_promo_data now m)
    else if tagIs v "store_data" then catchEnrich (enrich_store_data now m)
    else m

/-- The external collaborators of `QueueConsumer.process_message`, as
oracles over an abstract normalized-record type `ρ`:

* `parse`     — `json.loads` on the message body (`none` = raise);
* `normalize` — `DataNormalizer.normalize_message` (`error e` = the
  propagated exception, whose text `str(e)` is `e`);
* `validate`  — the external validator's pass/fail verdict;
* `enrich`    — `DataEnricher.enrich_message`, total (fail-open);
* `save`      — `DatabaseManager.save_to_database`, which catches its own
  exceptions and returns a boolean;
* `nowTs`     — `datetime.now().isoformat()` at DLQ-publication time. -/
structure Pipeline (ρ : Type) where
  parse : String → Option Assoc
  normalize : Assoc → Except String ρ
  validate : ρ → Bool
  enrich : ρ → ρ
  save : ρ → Bool
  nowTs : String

/-- A message published to the dead-letter queue by `send_to_dlq`. -/
structure DLQMsg where
  original_message : Assoc
  error : String
  timestamp : String

/-- The consumer's lifecycle state. -/
inductive Mode where
  | running
  | stopped
  deriving DecidableEq

/-- The consumer's mutable state: the three counters, the dead-letter
channel (as the list of messages published to it), the acknowledgements
sent (`true` = ack, `false` = nack without requeue), and the lifecycle
mode. -/
structure CState where
  messages_processed : Nat
  messages_successful : Nat
  messages_failed : Nat
  dlq : List DLQMsg
  acks : List Bool
  mode : Mode

/-- The consumer's state at startup. -/
def initState : CState :=
  { messages_processed := 0, messages_successful := 0, messages_failed := 0
  , dlq := [], acks := [], mode := .running }

/-- Outcome of one `process_message` call: `True` returned, `False`
returned, or an exception propagated out of the method. -/
inductive PMOut where
  | success
  | failure
  | raised
  deriving DecidableEq

/-- Embedding of `QueueConsumer.send_to_dlq`: publish the failed message
with the error text and a timestamp. -/
def send_to_dlq (pl : Pipeline ρ) (s : CState) (msg : Assoc) (err : String) :
    CState :=
  { s with dlq := s.dlq ++ [⟨msg, err, pl.nowTs⟩] }

/-- Embedding of `QueueConsumer.process_message`.  `messages_processed` is
incremented first.  When `json.loads` raises, control reaches the `except`
block with the local variable `message` unbound; evaluating
`self.send_to_dlq(message, error)` then raises `UnboundLocalError`, so no
DLQ publication happens, `messages_failed` is not incremented, and the
exception propagates out of the method (`PMOut.raised`).  When a later
stage fails, `message` is bound to the parsed envelope: it is published to
the DLQ with the stage's error text, `messages_failed` is incremented, and
`False` is returned. -/
def process_message (pl : Pipeline ρ) (body : String) (s : CState) :
    CState × PMOut :=
  let s := { s with messages_processed := s.messages_processed + 1 }
  match pl.parse body with
  | none => (s, .raised)
  | some msg =>
    match pl.normalize msg with
    | .error e =>
      let s := send_to_dlq pl s msg ("Message processing failed: " ++ e)
      ({ s with messages_failed := s.messages_failed + 1 }, .failure)
    | .ok nr =>
      if pl.validate nr then
        let er := pl.enrich nr
        if pl.save er then
          ({ s with messages_successful := s.messages_successful + 1 }, .success)
        else
          let s := send_to_dlq pl s msg "Failed to save to database"
          ({ s with messages_failed := s.messages_failed + 1 }, .failure)
      else
        let s := send_to_dlq pl s msg "Message validation failed"
        ({ s with messages_failed := s.messages_failed + 1 }, .failure)

/-- The consumer's bounded-run configuration (`TEST_MODE`, `TEST_LIMIT`). -/
structure Config where
  testMode : Bool
  testLimit : Nat

/-- Embedding of `QueueConsumer.stop`: cease consuming (idempotent). -/
def stopConsumer (s : CState) : CState :=
  { s with mode := .stopped }

/-- Embedding of `QueueConsumer.callback`: run `process_message`; ack on
success, nack (without requeue) on failure, then check the test-mode
cutoff.  An exception out of `process_message` is caught by the callback's
own handler, which nacks — and, being inside the handler, never reaches
the cutoff check. -/
def callback (cfg : Config) (pl : Pipeline ρ) (body : String) (s : CState) :
    CState :=
  match process_message pl body s with
  | (s', .success) =>
    let s' := { s' with acks := s'.acks ++ [true] }
    if cfg.testMode ∧ s'.messages_processed ≥ cfg.testLimit then stopConsumer s'
    else s'
  | (s', .failure) =>
    let s' := { s' with acks := s'.acks ++ [false] }
    if cfg.testMode ∧ s'.messages_processed ≥ cfg.testLimit then stopConsumer s'
    else s'
  | (s', .raised) => { s' with acks := s'.acks ++ [false] }

/-- The blocking consume loop: deliver queued bodies to the callback one at
a time while the consumer is running; return the final state and the
deliveries never consumed (those still on the broker after
`stop_consuming`). -/
def runConsumer (cfg : Config) (pl : Pipeline ρ) :
    List String → CState → CState × List String
  | [], s => (s, [])
  | b :: bs, s =>
    if s.mode = .running then runConsumer cfg pl bs (callback cfg pl b s)
    else (s, b :: bs)

/-- A row of the `items` table, over an abstract column-value type `α`
(`psycopg2` passes the message's values through; SQL comparison on the
conflict target is value equality). -/
structure ItemRow (α : Type) where
  chain_id : α
  store_id : α
  item_code : α
  item_name : α
  item_price : α
  item_unit : α
  item_unit_measure : α
  item_quantity : α
  item_manufacturer : α
  item_category : α
  item_subcategory : α
  item_brand : α
  item_promotion : α
  item_promotion_price : α
  item_promotion_description : α
  last_update_date : α
  last_update_time : α
  created_at : α
  updated_at : α
  deriving DecidableEq

/-- The 17 column values supplied by one `cursor.execute` in
`save_price_data`. -/
structure ItemVals (α : Type) where
  chain_id : α
  store_id : α
  item_code : α
  item_name : α
  item_price : α
  item_unit : α
  item_unit_measure : α
  item_quantity : α
  item_manufacturer : α
  item_category : α
  item_subcategory : α
  item_brand : α
  item_promotion : α
  item_promotion_price : α
  item_promotion_description : α
  last_update_date : α
  last_update_time : α
  deriving DecidableEq

/-- The conflict target `(chain_id, store_id, item_code, last_update_date)`
of the `items` upsert, on an existing row. -/
def itemRowKey (r : ItemRow α) : α × α × α × α :=
  (r.chain_id, r.store_id, r.item_code, r.last_update_date)

/-- The conflict target of the `items` upsert, on the incoming values. -/
def itemValsKey (v : ItemVals α) : α × α × α × α :=
  (v.chain_id, v.store_id, v.item_code, v.last_update_date)

/-- The row created by a conflict-free insert into `items`: the supplied
values, with `created_at` and `updated_at` defaulting to
`CURRENT_TIMESTAMP` (`now`). -/
def newItemRow (now : α) (v : ItemVals α) : ItemRow α :=
  { chain_id := v.chain_id, store_id := v.store_id, item_code := v.item_code
  , item_name := v.item_name, item_price := v.item_price
  , item_unit := v.item_unit, item_unit_measure := v.item_unit_measure
  , item_quantity := v.item_quantity
  , item_manufacturer := v.item_manufacturer
  , item_category := v.item_category
  , item_subcategory := v.item_subcategory, item_brand := v.item_brand
  , item_promotion := v.item_promotion
  , item_promotion_price := v.item_promotion_price
  , item_promotion_description := v.item_promotion_description
  , last_update_date := v.last_update_date
  , last_update_time := v.last_update_time
  , created_at := now, updated_at := now }

/-- The `DO UPDATE SET` clause of the `items` upsert, applied to a row when
and only when it sits on the conflict target: overwrite `item_price`,
`item_brand`, `item_promotion`, `item_promotion_price` and `updated_at`,
touch nothing else. -/
def applyItemConflict [DecidableEq α] (now : α) (v : ItemVals α)
    (r : ItemRow α) : ItemRow α :=
  if itemRowKey r = itemValsKey v then
    { r with
      item_price := v.item_price
      item_brand := v.item_brand
      item_promotion := v.item_promotion
      item_promotion_price := v.item_promotion_price
      updated_at := now }
  else r

/-- Embedding of the `INSERT ... ON CONFLICT ... DO UPDATE` statement of
`save_price_data`, over a table as a list of rows. -/
def upsertItem [DecidableEq α] (now : α) (t : List (ItemRow α))
    (v : ItemVals α) : List (ItemRow α) :=
  if t.any (fun r => decide (itemRowKey r = itemValsKey v)) then
    t.map (applyItemConflict now v)
  else t ++ [newItemRow now v]

/-- A row of the `stores` table. -/
structure StoreRow (α : Type) where
  chain_id : α
  chain_name : α
  sub_chain_id : α
  sub_chain_name : α
  store_id : α
  bikoret_no : α
  store_type : α
  store_name : α
  address : α
  city : α
  zip_code : α
  last_update_date : α
  last_update_time : α
  created_at : α
  updated_at : α
  deriving DecidableEq

/-- The 13 column values supplied by one `cursor.execute` in
`save_store_data`. -/
structure StoreVals (α : Type) where
  chain_id : α
  chain_name : α
  sub_chain_id : α
  sub_chain_name : α
  store_id : α
  bikoret_no : α
  store_type : α
  store_name : α
  address : α
  city : α
  zip_code : α
  last_update_date : α
  last_update_time : α
  deriving DecidableEq

/-- The conflict target `(chain_id, store_id)` of the `stores` upsert, on
an existing row. -/
def storeRowKey (r : StoreRow α) : α × α :=
  (r.chain_id, r.store_id)

/-- The conflict target of the `stores` upsert, on the incoming values. -/
def storeValsKey (v : StoreVals α) : α × α :=
  (v.chain_id, v.store_id)

/-- The row created by a conflict-free insert into `stores`. -/
def newStoreRow (now : α) (v : StoreVals α) : StoreRow α :=
  { chain_id := v.chain_id, chain_name := v.chain_name
  , sub_chain_id := v.sub_chain_id, sub_chain_name := v.sub_chain_name
  , store_id := v.store_id, bikoret_no := v.bikoret_no
  , store_type := v.store_type, store_name := v.store_name
  , address := v.address, city := v.city, zip_code := v.zip_code
  , last_update_date := v.last_update_date
  , last_update_time := v.last_update_time
  , created_at := now, updated_at := now }

/-- The `DO UPDATE SET` clause of the `stores` upsert: overwrite
`store_name`, `address`, `last_update_date` and `updated_at`, touch nothing
else. -/
def applyStoreConflict [DecidableEq α] (now : α) (v : StoreVals α)
    (r : StoreRow α) : StoreRow α :=
  if storeRowKey r = storeValsKey v then
    { r with
      store_name := v.store_name
      address := v.address
      last_update_date := v.last_update_date
      updated_at := now }
  else r

/-- Embedding of the `INSERT ... ON CONFLICT ... DO UPDATE` statement of
`save_store_data`. -/
def upsertStore [DecidableEq α] (now : α) (t : List (StoreRow α))
    (v : StoreVals α) : List (StoreRow α) :=
  if t.any (fun r => decide (storeRowKey r = storeValsKey v)) then
    t.map (applyStoreConflict now v)
  else t ++ [newStoreRow now v]

/-! Helper lemmas about the dict primitives and the loop combinators. -/

theorem alookup_cons (k' : String) (v' : JVal) (rest : Assoc) (k : String) :
    alookup ((k', v') :: rest) k =
      if k' = k then some v' else alookup rest k := rfl

theorem pyGetD_cons_self (k : String) (v : JVal) (rest : Assoc) (dflt : JVal) :
    pyGetD ((k, v) :: rest) k dflt = v := by
  simp [pyGetD, alookup]

theorem pyGetD_cons_ne (k' : String) (v' : JVal) (rest : Assoc) (k : String)
    (dflt : JVal) (h : k' ≠ k) :
    pyGetD ((k', v') :: rest) k dflt = pyGetD rest k dflt := by
  simp [pyGetD, alookup, h]

theorem alookup_aset_self (d : Assoc) (k : String) (v : JVal) :
    alookup (aset d k v) k = some v := by
  induction d with
  | nil => simp [aset, alookup]
  | cons kv rest ih =>
    obtain ⟨k', v'⟩ := kv
    by_cases h : k' = k <;> simp [aset, alookup, h, ih]

theorem alookup_aset_ne (d : Assoc) (k k' : String) (v : JVal) (h : k ≠ k') :
    alookup (aset d k v) k' = alookup d k' := by
  induction d with
  | nil => simp [aset, alookup, h]
  | cons kv rest ih =>
    obtain ⟨k0, v0⟩ := kv
    by_cases h0 : k0 = k
    · subst h0; simp [aset, alookup, h]
    · simp [aset, alookup, h0, ih]

/-- Whether a value is a Python list (`isinstance(x, list)`). -/
def isListJ : JVal → Bool
  | .arr _ => true
  | _ => false

theorem pyListify_eq_single {o : JVal} (h : isListJ o = false) :
    pyListify o = [o] := by
  cases o <;> simp_all [pyListify, isListJ]

theorem pyGet_cons_ne (k' : String) (v' : JVal) (rest : Assoc) (k : String)
    (h : k' ≠ k) :
    pyGet ((k', v') :: rest) k = pyGet rest k := by
  simp [pyGet, pyGetD, alookup, h]

theorem exceptMapM_congr {α β ε : Type} (f g : α → Except ε β) (l : List α)
    (h : ∀ a ∈ l, f a = g a) : l.mapM f = l.mapM g := by
  induction l with
  | nil => rfl
  | cons a as ih =>
    rw [List.mapM_cons, List.mapM_cons, h a (List.mem_cons_self a as),
      ih (fun x hx => h x (List.mem_cons_of_mem a hx))]


theorem exceptBind_ok {α β ε : Type} (x : α) (f : α → Except ε β) :
    ((Except.ok x : Except ε α) >>= f) = f x := rfl

theorem exceptMapM_append_cons_congr {α β ε : Type} (f : α → Except ε β)
    (pre post : List α) {x y : α} (h : f x = f y) :
    (pre ++ x :: post).mapM f = (pre ++ y :: post).mapM f := by
  induction pre with
  | nil =>
    rw [List.nil_append, List.nil_append, List.mapM_cons, List.mapM_cons, h]
  | cons a as ih =>
    rw [List.cons_append, List.cons_append, List.mapM_cons, List.mapM_cons, ih]
theorem nestedList_cons (outer inner : String) (v : JVal) (irest d : Assoc) :
    nestedList ((outer, .obj ((inner, v) :: irest)) :: d) outer inner =
      Except.ok (pyListify v) := by
  simp [nestedList, pyGetD_cons_self, asObjE, exceptBind_ok]


/-! Consumer control-loop claims. -/

/-- A pipeline whose body parsing fails, as `json.loads` does on a body
that is not well-formed JSON (such as `"not json"`); the later stages are
never reached on this path. -/
def parseFailPL : Pipeline Unit :=
  { parse := fun _ => none
  , normalize := fun _ => .error "boom"
  , validate := fun _ => true
  , enrich := id
  , save := fun _ => true
  , nowTs := "2025-01-01T00:00:00" }

/-- A pipeline on which every stage succeeds. -/
def allOkPL : Pipeline Unit :=
  { parse := fun _ => some []
  , normalize := fun _ => .ok ()
  , validate := fun _ => true
  , enrich := id
  , save := fun _ => true
  , nowTs := "2025-01-01T00:00:00" }

/-- C1: the claim — every failing message, including one whose body fails
to parse, is published exactly once to the dead-letter queue before being
nacked — is violated by the code at the parse stage.  When `json.loads`
raises, the `except` block evaluates `self.send_to_dlq(message, error)`
with the local `message` unbound, so `UnboundLocalError` propagates: the
callback nacks the message and nothing is published to the DLQ.  This
theorem evaluates the embedded consumer at such a body. -/
theorem c1_parse_failure_publishes_no_dlq :
    (callback ⟨false, 5⟩ parseFailPL "not json" initState).dlq = [] ∧
    (callback ⟨false, 5⟩ parseFailPL "not json" initState).acks = [false] :=
  ⟨rfl, rfl⟩

/-- C3: the claim — every message that does not succeed increments `failed`
exactly once, so `processed = succeeded + failed` after any run — is
violated by the code on a parse failure: `messages_processed` is
incremented on receipt, but the `UnboundLocalError` raised inside the
`except` block (unbound local `message`) escapes before
`messages_failed += 1` runs.  After consuming one unparseable body the
counters read processed 1, succeeded 0, failed 0. -/
theorem c3_counters_diverge_on_parse_failure :
    (runConsumer ⟨false, 5⟩ parseFailPL ["not json"] initState).1.messages_processed = 1 ∧
    (runConsumer ⟨false, 5⟩ parseFailPL ["not json"] initState).1.messages_successful = 0 ∧
    (runConsumer ⟨false, 5⟩ parseFailPL ["not json"] initState).1.messages_failed = 0 ∧
    (runConsumer ⟨false, 5⟩ parseFailPL ["not json"] initState).1.messages_processed ≠
      (runConsumer ⟨false, 5⟩ parseFailPL ["not json"] initState).1.messages_successful +
      (runConsumer ⟨false, 5⟩ parseFailPL ["not json"] initState).1.messages_failed :=
  ⟨rfl, rfl, rfl, by decide⟩

/-- C8, counterexample to the claim as stated: with cutoff 1 and a delivery
sequence of two unparseable bodies, the consumer processes 2 messages and
is still `running` — the exception escaping `process_message` on a parse
failure lands in the callback's handler, skipping the test-mode cutoff
check, so the consumer neither stops after 1 message nor refrains from
consuming a 2nd delivery. -/
theorem c8_counterexample :
    (runConsumer ⟨true, 1⟩ parseFailPL ["not json", "also not json"] initState).1.messages_processed = 2 ∧
    (runConsumer ⟨true, 1⟩ parseFailPL ["not json", "also not json"] initState).1.mode = Mode.running :=
  ⟨rfl, rfl⟩

theorem process_message_parse_ok {ρ : Type} (pl : Pipeline ρ) (body : String)
    (s : CState) (h : (pl.parse body).isSome) :
    (process_message pl body s).1.messages_processed = s.messages_processed + 1 ∧
    (process_message pl body s).1.mode = s.mode ∧
    (process_message pl body s).2 ≠ .raised := by
  obtain ⟨msg, hp⟩ := Option.isSome_iff_exists.mp h
  cases hn : pl.normalize msg with
  | error e => simp [process_message, hp, hn, send_to_dlq]
  | ok nr =>
    by_cases hv : pl.validate nr
    · by_cases hs : pl.save (pl.enrich nr)
      · simp [process_message, hp, hn, hv, hs]
      · simp [process_message, hp, hn, hv, hs, send_to_dlq]
    · simp [process_message, hp, hn, hv, send_to_dlq]

theorem runConsumer_stopped {ρ : Type} (cfg : Config) (pl : Pipeline ρ)
    (bs : List String) (s : CState) (h : s.mode = .stopped) :
    runConsumer cfg pl bs s = (s, bs) := by
  cases bs with
  | nil => rfl
  | cons b rest => unfold runConsumer; rw [if_neg (by rw [h]; intro hc; cases hc)]

theorem callback_spec {ρ : Type} (cfg : Config) (pl : Pipeline ρ)
    (body : String) (s s' : CState) (out : PMOut)
    (hpm : process_message pl body s = (s', out)) (hout : out ≠ .raised) :
    ∃ ack : Bool,
      callback cfg pl body s =
        if cfg.testMode = true ∧ s'.messages_processed ≥ cfg.testLimit
        then stopConsumer { s' with acks := s'.acks ++ [ack] }
        else { s' with acks := s'.acks ++ [ack] } := by
  unfold callback
  rw [hpm]
  cases out with
  | raised => exact absurd rfl hout
  | success => exact ⟨true, by simp⟩
  | failure => exact ⟨false, by simp⟩

theorem runConsumer_cutoff_aux {ρ : Type} (pl : Pipeline ρ) (cfg : Config)
    (hTest : cfg.testMode = true) :
    ∀ (bodies : List String) (s : CState),
      (∀ b ∈ bodies, (pl.parse b).isSome) →
      s.mode = .running →
      s.messages_processed < cfg.testLimit →
      cfg.testLimit - s.messages_processed ≤ bodies.length →
      (runConsumer cfg pl bodies s).1.messages_processed = cfg.testLimit ∧
      (runConsumer cfg pl bodies s).1.mode = .stopped ∧
      (runConsumer cfg pl bodies s).2.length =
        bodies.length - (cfg.testLimit - s.messages_processed)
  | [], s => by
    intro _ _ hlt hle
    simp at hle
    omega
  | b :: bs, s => by
    intro hparse hrun hlt hle
    have hps := process_message_parse_ok pl b s (hparse b (List.mem_cons_self b bs))
    rcases hpm : process_message pl b s with ⟨s', out⟩
    rw [hpm] at hps
    dsimp only at hps
    obtain ⟨hmp, hmode, hnr⟩ := hps
    obtain ⟨ack, hcb⟩ := callback_spec cfg pl b s s' out hpm hnr
    unfold runConsumer
    rw [if_pos (show s.mode = .running from hrun), hcb]
    by_cases hc : cfg.testLimit ≤ s'.messages_processed
    · rw [if_pos ⟨hTest, hc⟩, runConsumer_stopped _ _ _ _ rfl]
      refine ⟨by simp [stopConsumer]; omega, rfl, by simp; omega⟩
    · rw [if_neg (fun hx => hc hx.2)]
      have ih := runConsumer_cutoff_aux pl cfg hTest bs
        { s' with acks := s'.acks ++ [ack] }
        (fun x hx => hparse x (List.mem_cons_of_mem b hx))
        (by simpa using hmode.trans hrun)
        (by simp; omega)
        (by simp at hle ⊢; omega)
      refine ⟨ih.1, ih.2.1, ?_⟩
      rw [ih.2.2]
      simp
      omega

/-- C8, amended: in bounded-run mode with cutoff `N ≥ 1`, for every
delivery sequence of at least `N` bodies all of which parse, the consumer
processes exactly `N` messages — successes and post-parse failures alike —
transitions to `Stopped`, and leaves the remaining deliveries unconsumed.
(The claim's "regardless of which pipeline stage each message failed at"
must exclude the parse stage: a parse failure skips the cutoff check, see
the counterexample.) -/
theorem c8_bounded_run_cutoff {ρ : Type} (pl : Pipeline ρ) (cfg : Config)
    (bodies : List String) (hTest : cfg.testMode = true)
    (hPos : 1 ≤ cfg.testLimit)
    (hParse : ∀ b ∈ bodies, (pl.parse b).isSome)
    (hLen : cfg.testLimit ≤ bodies.length) :
    (runConsumer cfg pl bodies initState).1.messages_processed = cfg.testLimit ∧
    (runConsumer cfg pl bodies initState).1.mode = .stopped ∧
    (runConsumer cfg pl bodies initState).2.length = bodies.length - cfg.testLimit := by
  have h := runConsumer_cutoff_aux pl cfg hTest bodies initState hParse rfl
    (by simpa [initState] using hPos) (by simpa [initState] using hLen)
  simpa [initState] using h

/-- Witness for `c8_bounded_run_cutoff`: cutoff 2, three parseable
deliveries — the consumer processes exactly 2, stops, and leaves 1
delivery unconsumed. -/
theorem c8_witness :
    (runConsumer ⟨true, 2⟩ allOkPL ["a", "b", "c"] initState).1.messages_processed = 2 ∧
    (runConsumer ⟨true, 2⟩ allOkPL ["a", "b", "c"] initState).1.mode = .stopped ∧
    (runConsumer ⟨true, 2⟩ allOkPL ["a", "b", "c"] initState).2.length = 1 :=
  c8_bounded_run_cutoff allOkPL ⟨true, 2⟩ ["a", "b", "c"] rfl (by decide)
    (by intro b _; exact rfl) (by decide)

/-! Enricher claims. -/

/-- A brand-extractor backend that raises on every item. -/
def failExt : Extractor := fun _ => .error ()

/-- A price-data record with one item lacking a brand. -/
def c2msg : Assoc :=
  [ ("type", .str "price_data")
  , ("items", .arr [.obj [("item_name", .str "x")]]) ]

/-- C2, counterexample to the claim as stated: when the brand extractor
raises on the first item of `c2msg`, `enrich_message` catches the exception
and returns the record — but the record has already been mutated in place:
`processed_at` was stamped and the item's promotion defaults applied, so
the returned record is not the pre-call input. -/
theorem c2_counterexample :
    enrich_message failExt false "T0" c2msg ≠ c2msg := by
  intro h
  have h3 : (enrich_message failExt false "T0" c2msg).length = 3 := rfl
  have h2 : c2msg.length = 2 := rfl
  rw [h] at h3
  exact absurd (h2.symm.trans h3) (by decide)

/-- C2, amended: `enrich_message` never propagates an exception (it is
total); on an internal failure it returns the input record in its state at
the moment of the failure, which may already carry partial enrichment (the
`processed_at` stamp, item defaults, and brand fields on earlier items).
The record is returned exactly unmodified whenever the failure precedes any
mutation — in particular on the `KeyError` of a missing `type` tag, and on
an unrecognized tag (where no branch runs at all). -/
theorem c2_enrich_message_fail_open (ext : Extractor) (tm : Bool)
    (now : String) (m : Assoc)
    (h : ∀ v, alookup m "type" = some v →
      tagIs v "price_data" = false ∧ tagIs v "promo_data" = false ∧
      tagIs v "store_data" = false) :
    enrich_message ext tm now m = m := by
  unfold enrich_message
  cases hl : alookup m "type" with
  | none => rfl
  | some v =>
    obtain ⟨h1, h2, h3⟩ := h v hl
    simp [h1, h2, h3]

/-- Witness for `c2_enrich_message_fail_open`: a record with no `type` key
is returned untouched. -/
theorem c2_witness :
    enrich_message (fun j => Except.ok j) false "w" [("x", .num 1)] =
      [("x", .num 1)] :=
  c2_enrich_message_fail_open _ false "w" [("x", .num 1)]
    (fun v h => by simp [alookup] at h)

theorem pyGet_aset_self (d : Assoc) (k : String) (v : JVal) :
    pyGet (aset d k v) k = v := by
  simp [pyGet, pyGetD, alookup_aset_self]

theorem pyGet_aset_ne (d : Assoc) (k k' : String) (v : JVal) (h : k ≠ k') :
    pyGet (aset d k v) k' = pyGet d k' := by
  simp [pyGet, pyGetD, alookup_aset_ne _ _ _ _ h]

theorem pyTruthy_ne_num_zero {v : JVal} (h : pyTruthy v = true) :
    v ≠ .num 0 := by
  intro he; subst he; simp [pyTruthy] at h

theorem pyTruthy_ne_str_empty {v : JVal} (h : pyTruthy v = true) :
    v ≠ .str "" := by
  intro he; subst he; simp [pyTruthy] at h

/-- C10: the enricher's defaulting triggers on any falsy value, not only on
absence.  For every store dict: `enrich_store_data`'s per-store body turns
an explicit `store_type` of `0` (the very value `normalize_store_data`
produces for a missing `StoreType`, second conjunct) into `1` and an empty
`city` into `"Unknown"`, and after it runs no store has `store_type = 0` or
an empty `city`. -/
theorem c10_store_defaults :
    (∀ kvs : Assoc, ∃ kvs' : Assoc,
       enrichOneStore (.obj kvs) = .ok (.obj kvs') ∧
       (pyGet kvs "store_type" = .num 0 → pyGet kvs' "store_type" = .num 1) ∧
       (pyGet kvs "city" = .str "" → pyGet kvs' "city" = .str "Unknown") ∧
       pyGet kvs' "store_type" ≠ .num 0 ∧
       pyGet kvs' "city" ≠ .str "") ∧
    (∀ (st d scA : Assoc), alookup st "StoreType" = none →
       ∃ r : NStore, normOneStore d scA (.obj st) = .ok r ∧ r.store_type = 0) := by
  constructor
  · intro kvs
    by_cases h1 : pyTruthy (pyGet kvs "store_type")
    · by_cases h2 : pyTruthy (pyGet kvs "city")
      · refine ⟨kvs, by simp [enrichOneStore, h1, h2], ?_, ?_, ?_, ?_⟩
        · intro h0; rw [h0] at h1; simp [pyTruthy] at h1
        · intro h0; rw [h0] at h2; simp [pyTruthy] at h2
        · exact pyTruthy_ne_num_zero h1
        · exact pyTruthy_ne_str_empty h2
      · refine ⟨aset kvs "city" (.str "Unknown"),
          by simp [enrichOneStore, h1, h2], ?_, ?_, ?_, ?_⟩
        · intro h0; rw [h0] at h1; simp [pyTruthy] at h1
        · intro _; exact pyGet_aset_self kvs "city" (.str "Unknown")
        · rw [pyGet_aset_ne _ _ _ _ (by decide)]
          exact pyTruthy_ne_num_zero h1
        · rw [pyGet_aset_self]; intro h0
          exact absurd (JVal.str.inj h0) (by decide)
    · have hcity : pyGet (aset kvs "store_type" (.num 1)) "city" = pyGet kvs "city" :=
        pyGet_aset_ne _ _ _ _ (by decide)
      by_cases h2 : pyTruthy (pyGet kvs "city")
      · refine ⟨aset kvs "store_type" (.num 1),
          by simp [enrichOneStore, h1, hcity, h2], ?_, ?_, ?_, ?_⟩
        · intro _; exact pyGet_aset_self kvs "store_type" (.num 1)
        · intro h0; rw [h0] at h2; simp [pyTruthy] at h2
        · rw [pyGet_aset_self]; intro h0
          exact absurd (JVal.num.inj h0) (by decide)
        · rw [hcity]; exact pyTruthy_ne_str_empty h2
      · refine ⟨aset (aset kvs "store_type" (.num 1)) "city" (.str "Unknown"),
          by simp [enrichOneStore, h1, hcity, h2], ?_, ?_, ?_, ?_⟩
        · intro _
          rw [pyGet_aset_ne _ _ _ _ (by decide)]
          exact pyGet_aset_self kvs "store_type" (.num 1)
        · intro _; exact pyGet_aset_self _ "city" (.str "Unknown")
        · rw [pyGet_aset_ne _ _ _ _ (by decide), pyGet_aset_self]
          intro h0
          exact absurd (JVal.num.inj h0) (by decide)
        · rw [pyGet_aset_self]; intro h0
          exact absurd (JVal.str.inj h0) (by decide)
  · intro st d scA h
    have hg : pyGetD st "StoreType" (.num 0) = .num 0 := by
      simp [pyGetD, h]
    refine ⟨{ sub_chain_id := pyGet scA "SubChainID"
            , sub_chain_name := pyGet scA "SubChainName"
            , store_id := pyGet st "StoreID"
            , bikoret_no := pyGet st "BikoretNo"
            , store_type := 0
            , store_name := pyGet st "StoreName"
            , address := pyGet st "Address"
            , city := pyGet st "City"
            , zip_code := pyGet st "ZipCode"
            , last_update_date := pyGet d "LastUpdateDate"
            , last_update_time := pyGet d "LastUpdateTime" }, ?_, rfl⟩
    simp only [normOneStore, asObjE, hg, toIntE, exceptBind_ok]
    rfl

/-- Witness for `c10_store_defaults`: a store with explicit `store_type 0`
and empty `city` leaves the per-store enrichment with `store_type 1` and
`city "Unknown"`, and a store dict without `StoreType` normalizes to
`store_type 0`. -/
theorem c10_witness :
    (∃ kvs' : Assoc,
       enrichOneStore (.obj [("store_type", .num 0), ("city", .str "")]) =
         .ok (.obj kvs') ∧
       pyGet kvs' "store_type" = .num 1 ∧ pyGet kvs' "city" = .str "Unknown") ∧
    (∃ r : NStore, normOneStore [] [] (.obj [("StoreID", .str "001")]) = .ok r ∧
       r.store_type = 0) := by
  constructor
  · obtain ⟨kvs', he, hst, hc, _, _⟩ :=
      c10_store_defaults.1 [("store_type", .num 0), ("city", .str "")]
    exact ⟨kvs', he, hst rfl, hc rfl⟩
  · exact c10_store_defaults.2 [("StoreID", .str "001")] [] [] rfl

/-! Brand-extractor claims. -/

theorem scanDict_brand_mem (dict : List (String × List String)) (c : String)
    (b p : String) (h : scanDict dict c = some (b, p)) :
    b ∈ dict.map Prod.fst := by
  induction dict with
  | nil => simp [scanDict] at h
  | cons bp rest ih =>
    obtain ⟨b0, pats⟩ := bp
    simp only [scanDict] at h
    cases hf : pats.find? (fun q => strContains c (lowerStr q)) with
    | some q =>
      rw [hf] at h
      simp only [Option.some.injEq, Prod.mk.injEq] at h
      simp only [List.map_cons, List.mem_cons]
      exact Or.inl h.1.symm
    | none =>
      rw [hf] at h
      simp only [List.map_cons, List.mem_cons]
      exact Or.inr (ih h)

theorem pyTitleGo_length (b : Bool) (l : List Char) :
    (pyTitleGo b l).length = l.length := by
  induction l generalizing b with
  | nil => rfl
  | cons c cs ih => simp [pyTitleGo, ih]

theorem pyTitle_ne_empty {s : String} (h : 0 < s.length) : pyTitle s ≠ "" := by
  intro he
  have h2 := congrArg String.length he
  have h3 : (pyTitleGo false s.data).length = 0 := h2
  rw [pyTitleGo_length] at h3
  have : s.length = 0 := h3
  omega

theorem manufacturerStage_spec (lmanu : String) (g : BrandGuess)
    (h : manufacturerStage lmanu = some g) :
    (∃ b, g.brand = some b ∧ b ≠ "") ∧ g.confidence = mkRat 6 10 ∧
    g.source_field = some "manufacturer" := by
  unfold manufacturerStage at h
  split at h
  · split at h
    · rename_i hlen
      injection h with h
      subst h
      exact ⟨⟨_, rfl, pyTitle_ne_empty (by omega)⟩, rfl, rfl⟩
    · cases h
  · cases h

theorem firstWordStage_spec (lname : String) (g : BrandGuess)
    (h : firstWordStage lname = some g) :
    (∃ b, g.brand = some b ∧ b ≠ "") ∧ g.confidence = mkRat 4 10 ∧
    g.source_field = some "item_name" := by
  unfold firstWordStage at h
  split at h
  · cases hf : (wordRuns lname.data).find?
        (fun w => w.length > 2 && w ∉ stopWords) with
    | some w =>
      rw [hf] at h
      injection h with h
      subst h
      have hw := List.find?_some hf
      simp only [Bool.and_eq_true, decide_eq_true_eq] at hw
      exact ⟨⟨_, rfl, pyTitle_ne_empty (by omega)⟩, rfl, rfl⟩
    | none => rw [hf] at h; cases h
  · cases h

/-- C9: structural invariants of every guess returned by
`extract_brand_with_rules`: the brand is non-null exactly when the
confidence is strictly positive, exactly when the source field is
non-null; the confidence is one of 0, 0.4, 0.6, 0.7, 0.9; and a non-null
brand is never the empty string. -/
theorem c9_guess_invariants (name manu desc : String) :
    ((extract_brand_with_rules name manu desc).brand.isSome ↔
      0 < (extract_brand_with_rules name manu desc).confidence) ∧
    ((extract_brand_with_rules name manu desc).brand.isSome ↔
      (extract_brand_with_rules name manu desc).source_field.isSome) ∧
    ((extract_brand_with_rules name manu desc).confidence = 0 ∨
     (extract_brand_with_rules name manu desc).confidence = mkRat 4 10 ∨
     (extract_brand_with_rules name manu desc).confidence = mkRat 6 10 ∨
     (extract_brand_with_rules name manu desc).confidence = mkRat 7 10 ∨
     (extract_brand_with_rules name manu desc).confidence = mkRat 9 10) ∧
    (extract_brand_with_rules name manu desc).brand ≠ some "" := by
  unfold extract_brand_with_rules
  split
  · exact ⟨by decide, by decide, by decide, by decide⟩
  · split
    · rename_i b p hheb
      have hb : b ≠ "" := by
        have hmem := scanDict_brand_mem _ _ _ _ hheb
        have hall : ∀ x ∈ hebrew_brands.map Prod.fst, x ≠ "" := by decide
        exact hall b hmem
      unfold mkDictGuess
      split
      · exact ⟨iff_of_true rfl (show (0 : Rat) < mkRat 9 10 by decide),
          iff_of_true rfl rfl, by right; right; right; right; rfl,
          fun hx => hb (Option.some.inj hx)⟩
      · exact ⟨iff_of_true rfl (show (0 : Rat) < mkRat 7 10 by decide),
          iff_of_true rfl rfl, by right; right; right; left; rfl,
          fun hx => hb (Option.some.inj hx)⟩
    · split
      · rename_i b p heng
        have hb : b ≠ "" := by
          have hmem := scanDict_brand_mem _ _ _ _ heng
          have hall : ∀ x ∈ english_brands.map Prod.fst, x ≠ "" := by decide
          exact hall b hmem
        unfold mkDictGuess
        split
        · exact ⟨iff_of_true rfl (show (0 : Rat) < mkRat 9 10 by decide),
            iff_of_true rfl rfl, by right; right; right; right; rfl,
            fun hx => hb (Option.some.inj hx)⟩
        · exact ⟨iff_of_true rfl (show (0 : Rat) < mkRat 7 10 by decide),
            iff_of_true rfl rfl, by right; right; right; left; rfl,
            fun hx => hb (Option.some.inj hx)⟩
      · split
        · rename_i g hm
          obtain ⟨⟨b, hbeq, hb⟩, hconf, hsrc⟩ := manufacturerStage_spec _ g hm
          refine ⟨?_, ?_, by right; right; left; exact hconf, ?_⟩
          · rw [hbeq, hconf]
            exact iff_of_true rfl (by decide)
          · rw [hbeq, hsrc]
            exact iff_of_true rfl rfl
          · rw [hbeq]
            exact fun hx => hb (Option.some.inj hx)
        · split
          · rename_i g hw
            obtain ⟨⟨b, hbeq, hb⟩, hconf, hsrc⟩ := firstWordStage_spec _ g hw
            refine ⟨?_, ?_, by right; left; exact hconf, ?_⟩
            · rw [hbeq, hconf]
              exact iff_of_true rfl (by decide)
            · rw [hbeq, hsrc]
              exact iff_of_true rfl rfl
            · rw [hbeq]
              exact fun hx => hb (Option.some.inj hx)
          · exact ⟨by decide, by decide, by decide, by decide⟩

/-- Witness for `c9_guess_invariants` at a dictionary hit: the guess for
item name "bamba" has a non-empty brand, and by the theorem its
source field is populated. -/
theorem c9_witness :
    (extract_brand_with_rules "bamba" "" "").brand ≠ some "" ∧
    (extract_brand_with_rules "bamba" "" "").source_field.isSome := by
  have h := c9_guess_invariants "bamba" "" ""
  exact ⟨h.2.2.2, h.2.1.mp (by decide)⟩

theorem listFind_append {α : Type} (l₁ l₂ : List α) (f : α → Bool) :
    (l₁ ++ l₂).find? f =
      match l₁.find? f with
      | some a => some a
      | none => l₂.find? f := by
  induction l₁ with
  | nil => simp [List.find?]
  | cons a as ih =>
    by_cases hf : f a
    · simp [List.find?, hf]
    · simp only [List.cons_append, List.find?, hf]
      exact ih

theorem listFind_map {α β : Type} (f : α → β) (l : List α) (p : β → Bool) :
    (l.map f).find? p = (l.find? (fun a => p (f a))).map f := by
  induction l with
  | nil => rfl
  | cons a as ih =>
    by_cases hf : p (f a)
    · simp [List.find?, hf]
    · simp only [List.map_cons, List.find?, hf]
      exact ih

/-- One language group of the spec's dictionary, flattened to
`(canonical brand, pattern, method)` triples — brands in dictionary order,
each brand's patterns in listed order. -/
def groupPatterns (dict : List (String × List String)) (tag : String) :
    List (String × String × String) :=
  (dict.map (fun bp => bp.2.map (fun p => (bp.1, p, tag)))).flatten

/-- Modelled from the spec's words ("Curated bilingual brand dictionary,
language group A (script A) checked before language group B (script B)",
"the canonical brand of the first matching pattern"): the full pattern
list, Hebrew group first, then English. -/
def specPatternList : List (String × String × String) :=
  groupPatterns hebrew_brands "rule_based_hebrew" ++
  groupPatterns english_brands "rule_based_english"

/-- Modelled from the spec: the first pattern of `specPatternList` whose
lowered form occurs in the combined text, with its canonical brand and
language-group method. -/
def specFirstMatch (combined : String) : Option (String × String × String) :=
  specPatternList.find? (fun e => strContains combined (lowerStr e.2.1))

theorem groupPatterns_find_eq_scanDict (dict : List (String × List String))
    (c : String) (tag : String) :
    (groupPatterns dict tag).find? (fun e => strContains c (lowerStr e.2.1)) =
      (scanDict dict c).map (fun bp => (bp.1, bp.2, tag)) := by
  induction dict with
  | nil => rfl
  | cons bp rest ih =>
    obtain ⟨b, pats⟩ := bp
    show ((pats.map (fun p => (b, p, tag)) ++ groupPatterns rest tag).find?
        (fun e => strContains c (lowerStr e.2.1))) = _
    rw [listFind_append, listFind_map]
    cases hf : pats.find? (fun q => strContains c (lowerStr q)) with
    | some q => simp [scanDict, hf]
    | none => simp [scanDict, hf, ih]

theorem specFirstMatch_heb (c b0 p0 : String)
    (h : scanDict hebrew_brands c = some (b0, p0)) :
    specFirstMatch c = some (b0, p0, "rule_based_hebrew") := by
  unfold specFirstMatch specPatternList
  rw [listFind_append, groupPatterns_find_eq_scanDict, h]
  rfl

theorem specFirstMatch_eng (c b0 p0 : String)
    (hh : scanDict hebrew_brands c = none)
    (h : scanDict english_brands c = some (b0, p0)) :
    specFirstMatch c = some (b0, p0, "rule_based_english") := by
  unfold specFirstMatch specPatternList
  rw [listFind_append, groupPatterns_find_eq_scanDict,
    groupPatterns_find_eq_scanDict, hh, h]
  rfl

theorem specFirstMatch_no_dict (c : String)
    (hh : scanDict hebrew_brands c = none)
    (he : scanDict english_brands c = none) :
    specFirstMatch c = none := by
  unfold specFirstMatch specPatternList
  rw [listFind_append, groupPatterns_find_eq_scanDict,
    groupPatterns_find_eq_scanDict, hh, he]
  rfl

theorem specFirstMatch_sentinels :
    specFirstMatch "" = none ∧ specFirstMatch "לא ידוע" = none ∧
    specFirstMatch "unknown" = none := by decide

/-- C4, counterexample to the claim as stated: for item name "coca",
manufacturer "cola zero" and empty description, the Hebrew dictionary
pattern "coca cola" matches the combined text (it spans the name/
manufacturer boundary), and the code returns `source_field =
"description"` even though none of the three fields — in particular not
the (empty) description — contains the matched pattern.  The claim's
"source_field set to the first of item name, manufacturer, description
that contains the pattern" therefore fails at this input. -/
theorem c4_counterexample :
    extract_brand_with_rules "coca" "cola zero" "" =
      { brand := some "קוקה קולה", confidence := mkRat 7 10
      , source_field := some "description"
      , extraction_method := "rule_based_hebrew" } ∧
    strContains (lowerStr "coca") (lowerStr "coca cola") = false ∧
    strContains (lowerStr "cola zero") (lowerStr "coca cola") = false ∧
    strContains (lowerStr "") (lowerStr "coca cola") = false := by
  decide

/-- C4, amended: whenever some dictionary pattern occurs in the combined
lowered text (`specFirstMatch`), the extractor returns the canonical brand
of the first matching pattern, Hebrew group before English group,
confidence 0.9 when the pattern occurs in the lowered item name and 0.7
otherwise, and — in preference to the manufacturer and first-word stages,
which are never consulted — `source_field` is `item_name` if the pattern
occurs in the item name, else `manufacturer` if it occurs in the
manufacturer, else `description` unconditionally (even when the match
spans field boundaries and no single field contains the pattern). -/
theorem c4_dictionary_stage (name manu desc : String) (b p meth : String)
    (h : specFirstMatch (combinedText name manu desc) = some (b, p, meth)) :
    extract_brand_with_rules name manu desc =
      { brand := some b
      , confidence := if strContains (lowerStr name) (lowerStr p) then mkRat 9 10
                      else mkRat 7 10
      , source_field := some
          (if strContains (lowerStr name) (lowerStr p) then "item_name"
           else if strContains (lowerStr manu) (lowerStr p) then "manufacturer"
           else "description")
      , extraction_method := meth } := by
  have hsent : ¬ (combinedText name manu desc = "" ∨
      combinedText name manu desc ∈ ["לא ידוע", "unknown", ""]) := by
    intro hc
    have hnone : specFirstMatch (combinedText name manu desc) = none := by
      rcases hc with hc | hc
      · rw [hc]; exact specFirstMatch_sentinels.1
      · simp only [List.mem_cons] at hc
        rcases hc with hc | hc | hc | hc
        · rw [hc]; exact specFirstMatch_sentinels.2.1
        · rw [hc]; exact specFirstMatch_sentinels.2.2
        · rw [hc]; exact specFirstMatch_sentinels.1
        · cases hc
    rw [hnone] at h
    cases h
  unfold extract_brand_with_rules
  rw [if_neg hsent]
  cases hheb : scanDict hebrew_brands (combinedText name manu desc) with
  | some bp =>
    obtain ⟨b0, p0⟩ := bp
    rw [specFirstMatch_heb _ _ _ hheb] at h
    simp only [Option.some.injEq, Prod.mk.injEq] at h
    obtain ⟨hb, hp, hm⟩ := h
    subst hb; subst hp; subst hm
    rfl
  | none =>
    cases heng : scanDict english_brands (combinedText name manu desc) with
    | some bp =>
      obtain ⟨b0, p0⟩ := bp
      rw [specFirstMatch_eng _ _ _ hheb heng] at h
      simp only [Option.some.injEq, Prod.mk.injEq] at h
      obtain ⟨hb, hp, hm⟩ := h
      subst hb; subst hp; subst hm
      rfl
    | none =>
      rw [specFirstMatch_no_dict _ hheb heng] at h
      cases h

/-- Witness for `c4_dictionary_stage`: the spec's own end-to-end example —
the Hebrew dictionary entry for "קוקה קולה" matched in the item name gives
confidence 0.9, source `item_name`, method `rule_based_hebrew`. -/
theorem c4_witness :
    extract_brand_with_rules "קוקה קולה 1.5 ליטר" "" "" =
      { brand := some "קוקה קולה", confidence := mkRat 9 10
      , source_field := some "item_name"
      , extraction_method := "rule_based_hebrew" } := by
  have h := c4_dictionary_stage "קוקה קולה 1.5 ליטר" "" "" "קוקה קולה" "קוקה קולה"
    "rule_based_hebrew" (by decide)
  exact h.trans (by decide)

/-! Normalizer claims: the singleton-vs-list invariant. -/

theorem normalize_price_data_items (d md irest : Assoc) (o : JVal)
    (h : isListJ o = false) :
    normalize_price_data (("Items", .obj (("Item", o) :: irest)) :: d) md =
    normalize_price_data (("Items", .obj (("Item", .arr [o]) :: irest)) :: d) md := by
  have e1 : nestedList (("Items", .obj (("Item", o) :: irest)) :: d) "Items" "Item" =
      Except.ok [o] := by rw [nestedList_cons, pyListify_eq_single h]
  have e2 : nestedList (("Items", .obj (("Item", .arr [o]) :: irest)) :: d) "Items" "Item" =
      Except.ok [o] := by rw [nestedList_cons]; rfl
  unfold normalize_price_data
  rw [e1, e2,
    pyGet_cons_ne "Items" (.obj (("Item", o) :: irest)) d "LastUpdateTime" (by decide),
    pyGet_cons_ne "Items" (.obj (("Item", .arr [o]) :: irest)) d "LastUpdateTime" (by decide),
    pyGet_cons_ne "Items" (.obj (("Item", o) :: irest)) d "ChainId" (by decide),
    pyGet_cons_ne "Items" (.obj (("Item", .arr [o]) :: irest)) d "ChainId" (by decide),
    pyGetD_cons_ne "Items" (.obj (("Item", o) :: irest)) d "StoreId" _ (by decide),
    pyGetD_cons_ne "Items" (.obj (("Item", .arr [o]) :: irest)) d "StoreId" _ (by decide)]

theorem normalize_promo_data_promotions (d md irest : Assoc) (o : JVal)
    (h : isListJ o = false) :
    normalize_promo_data (("Promotions", .obj (("Promotion", o) :: irest)) :: d) md =
    normalize_promo_data (("Promotions", .obj (("Promotion", .arr [o]) :: irest)) :: d) md := by
  have e1 : nestedList (("Promotions", .obj (("Promotion", o) :: irest)) :: d)
      "Promotions" "Promotion" = Except.ok [o] := by
    rw [nestedList_cons, pyListify_eq_single h]
  have e2 : nestedList (("Promotions", .obj (("Promotion", .arr [o]) :: irest)) :: d)
      "Promotions" "Promotion" = Except.ok [o] := by rw [nestedList_cons]; rfl
  unfold normalize_promo_data
  rw [e1, e2,
    pyGet_cons_ne "Promotions" (.obj (("Promotion", o) :: irest)) d "ChainId" (by decide),
    pyGet_cons_ne "Promotions" (.obj (("Promotion", .arr [o]) :: irest)) d "ChainId" (by decide),
    pyGetD_cons_ne "Promotions" (.obj (("Promotion", o) :: irest)) d "StoreId" _ (by decide),
    pyGetD_cons_ne "Promotions" (.obj (("Promotion", .arr [o]) :: irest)) d "StoreId" _ (by decide)]

theorem normOnePromotion_promo_items (prest irest : Assoc) (o : JVal)
    (h : isListJ o = false) :
    normOnePromotion (.obj (("PromotionItems", .obj (("Item", o) :: irest)) :: prest)) =
    normOnePromotion (.obj (("PromotionItems", .obj (("Item", .arr [o]) :: irest)) :: prest)) := by
  have e1 : nestedList (("PromotionItems", .obj (("Item", o) :: irest)) :: prest)
      "PromotionItems" "Item" = Except.ok [o] := by
    rw [nestedList_cons, pyListify_eq_single h]
  have e2 : nestedList (("PromotionItems", .obj (("Item", .arr [o]) :: irest)) :: prest)
      "PromotionItems" "Item" = Except.ok [o] := by rw [nestedList_cons]; rfl
  unfold normOnePromotion
  rw [show asObjE (.obj (("PromotionItems", .obj (("Item", o) :: irest)) :: prest)) =
      Except.ok (("PromotionItems", .obj (("Item", o) :: irest)) :: prest) from rfl,
    show asObjE (.obj (("PromotionItems", .obj (("Item", .arr [o]) :: irest)) :: prest)) =
      Except.ok (("PromotionItems", .obj (("Item", .arr [o]) :: irest)) :: prest) from rfl,
    exceptBind_ok, exceptBind_ok,
    pyGetD_cons_ne "PromotionItems" (.obj (("Item", o) :: irest)) prest "DiscountedPrice" _ (by decide),
    pyGetD_cons_ne "PromotionItems" (.obj (("Item", .arr [o]) :: irest)) prest "DiscountedPrice" _ (by decide)]
  cases hd : toFloatE (pyGetD prest "DiscountedPrice" (.num 0)) with
  | error e => rfl
  | ok disc =>
    rw [exceptBind_ok, exceptBind_ok,
      pyGetD_cons_ne "PromotionItems" (.obj (("Item", o) :: irest)) prest "MinQty" _ (by decide),
      pyGetD_cons_ne "PromotionItems" (.obj (("Item", .arr [o]) :: irest)) prest "MinQty" _ (by decide)]
    cases hm : toFloatE (pyGetD prest "MinQty" (.num 0)) with
    | error e => rfl
    | ok minq =>
      rw [exceptBind_ok, exceptBind_ok, e1, e2, exceptBind_ok, exceptBind_ok,
        pyGet_cons_ne "PromotionItems" (.obj (("Item", o) :: irest)) prest "PromotionId" (by decide),
        pyGet_cons_ne "PromotionItems" (.obj (("Item", .arr [o]) :: irest)) prest "PromotionId" (by decide),
        pyGet_cons_ne "PromotionItems" (.obj (("Item", o) :: irest)) prest "PromotionDescription" (by decide),
        pyGet_cons_ne "PromotionItems" (.obj (("Item", .arr [o]) :: irest)) prest "PromotionDescription" (by decide),
        pyGet_cons_ne "PromotionItems" (.obj (("Item", o) :: irest)) prest "PromotionUpdateDate" (by decide),
        pyGet_cons_ne "PromotionItems" (.obj (("Item", .arr [o]) :: irest)) prest "PromotionUpdateDate" (by decide),
        pyGet_cons_ne "PromotionItems" (.obj (("Item", o) :: irest)) prest "PromotionStartDate" (by decide),
        pyGet_cons_ne "PromotionItems" (.obj (("Item", .arr [o]) :: irest)) prest "PromotionStartDate" (by decide),
        pyGet_cons_ne "PromotionItems" (.obj (("Item", o) :: irest)) prest "PromotionEndDate" (by decide),
        pyGet_cons_ne "PromotionItems" (.obj (("Item", .arr [o]) :: irest)) prest "PromotionEndDate" (by decide),
        pyGet_cons_ne "PromotionItems" (.obj (("Item", o) :: irest)) prest "RewardType" (by decide),
        pyGet_cons_ne "PromotionItems" (.obj (("Item", .arr [o]) :: irest)) prest "RewardType" (by decide),
        pyGetD_cons_ne "PromotionItems" (.obj (("Item", o) :: irest)) prest "AllowMultipleDiscounts" _ (by decide),
        pyGetD_cons_ne "PromotionItems" (.obj (("Item", .arr [o]) :: irest)) prest "AllowMultipleDiscounts" _ (by decide)]

theorem normalize_promo_data_promo_items (d md orest prest irest : Assoc)
    (pre post : List JVal) (o : JVal) (h : isListJ o = false) :
    normalize_promo_data (("Promotions", .obj (("Promotion",
        .arr (pre ++ .obj (("PromotionItems", .obj (("Item", o) :: irest)) :: prest) :: post))
        :: orest)) :: d) md =
    normalize_promo_data (("Promotions", .obj (("Promotion",
        .arr (pre ++ .obj (("PromotionItems", .obj (("Item", .arr [o]) :: irest)) :: prest) :: post))
        :: orest)) :: d) md := by
  have e1 := nestedList_cons "Promotions" "Promotion"
    (.arr (pre ++ .obj (("PromotionItems", .obj (("Item", o) :: irest)) :: prest) :: post)) orest d
  have e2 := nestedList_cons "Promotions" "Promotion"
    (.arr (pre ++ .obj (("PromotionItems", .obj (("Item", .arr [o]) :: irest)) :: prest) :: post)) orest d
  unfold normalize_promo_data
  rw [e1, e2]
  show (Except.ok (pre ++ _ :: post) >>= _) = (Except.ok (pre ++ _ :: post) >>= _)
  rw [exceptBind_ok, exceptBind_ok,
    exceptMapM_append_cons_congr normOnePromotion pre post
      (normOnePromotion_promo_items prest irest o h),
    pyGet_cons_ne "Promotions" _ d "ChainId" (by decide),
    pyGet_cons_ne "Promotions" _ d "ChainId" (by decide),
    pyGetD_cons_ne "Promotions" _ d "StoreId" _ (by decide),
    pyGetD_cons_ne "Promotions" _ d "StoreId" _ (by decide)]

theorem normOneStore_data_congr (X Y : JVal) (d scA : Assoc) (st : JVal) :
    normOneStore (("SubChains", X) :: d) scA st =
    normOneStore (("SubChains", Y) :: d) scA st := by
  unfold normOneStore
  rw [pyGet_cons_ne "SubChains" X d "LastUpdateDate" (by decide),
    pyGet_cons_ne "SubChains" Y d "LastUpdateDate" (by decide),
    pyGet_cons_ne "SubChains" X d "LastUpdateTime" (by decide),
    pyGet_cons_ne "SubChains" Y d "LastUpdateTime" (by decide)]

theorem normSubChain_data_congr (X Y : JVal) (d : Assoc) (sc : JVal) :
    normSubChain (("SubChains", X) :: d) sc =
    normSubChain (("SubChains", Y) :: d) sc := by
  unfold normSubChain
  cases sc with
  | obj sckvs =>
    rw [show asObjE (.obj sckvs) = Except.ok sckvs from rfl,
      exceptBind_ok, exceptBind_ok]
    cases hn : nestedList sckvs "Stores" "Store" with
    | error e => rfl
    | ok l =>
      rw [exceptBind_ok, exceptBind_ok,
        exceptMapM_congr _ _ l (fun a _ => normOneStore_data_congr X Y d sckvs a)]
  | null => rfl
  | bool b => rfl
  | num q => rfl
  | str s => rfl
  | arr xs => rfl

theorem normOneStore_subchain_congr (X Y : JVal) (d screst : Assoc) (st : JVal) :
    normOneStore d (("Stores", X) :: screst) st =
    normOneStore d (("Stores", Y) :: screst) st := by
  unfold normOneStore
  rw [pyGet_cons_ne "Stores" X screst "SubChainID" (by decide),
    pyGet_cons_ne "Stores" Y screst "SubChainID" (by decide),
    pyGet_cons_ne "Stores" X screst "SubChainName" (by decide),
    pyGet_cons_ne "Stores" Y screst "SubChainName" (by decide)]

theorem normSubChain_stores (d screst srest : Assoc) (o : JVal)
    (h : isListJ o = false) :
    normSubChain d (.obj (("Stores", .obj (("Store", o) :: srest)) :: screst)) =
    normSubChain d (.obj (("Stores", .obj (("Store", .arr [o]) :: srest)) :: screst)) := by
  have e1 : nestedList (("Stores", .obj (("Store", o) :: srest)) :: screst)
      "Stores" "Store" = Except.ok [o] := by
    rw [nestedList_cons, pyListify_eq_single h]
  have e2 : nestedList (("Stores", .obj (("Store", .arr [o]) :: srest)) :: screst)
      "Stores" "Store" = Except.ok [o] := by rw [nestedList_cons]; rfl
  unfold normSubChain
  rw [show asObjE (.obj (("Stores", .obj (("Store", o) :: srest)) :: screst)) =
      Except.ok (("Stores", .obj (("Store", o) :: srest)) :: screst) from rfl,
    show asObjE (.obj (("Stores", .obj (("Store", .arr [o]) :: srest)) :: screst)) =
      Except.ok (("Stores", .obj (("Store", .arr [o]) :: srest)) :: screst) from rfl,
    exceptBind_ok, exceptBind_ok, e1, e2, exceptBind_ok, exceptBind_ok]
  exact exceptMapM_congr _ _ [o]
    (fun a _ => normOneStore_subchain_congr _ _ d screst a)

theorem normalize_store_data_sub_chains (d md irest : Assoc) (o : JVal)
    (h : isListJ o = false) :
    normalize_store_data (("SubChains", .obj (("SubChain", o) :: irest)) :: d) md =
    normalize_store_data (("SubChains", .obj (("SubChain", .arr [o]) :: irest)) :: d) md := by
  have e1 : nestedList (("SubChains", .obj (("SubChain", o) :: irest)) :: d)
      "SubChains" "SubChain" = Except.ok [o] := by
    rw [nestedList_cons, pyListify_eq_single h]
  have e2 : nestedList (("SubChains", .obj (("SubChain", .arr [o]) :: irest)) :: d)
      "SubChains" "SubChain" = Except.ok [o] := by rw [nestedList_cons]; rfl
  unfold normalize_store_data
  rw [e1, e2, exceptBind_ok, exceptBind_ok,
    exceptMapM_congr _ _ [o] (fun a _ => normSubChain_data_congr
      (.obj (("SubChain", o) :: irest)) (.obj (("SubChain", .arr [o]) :: irest)) d a),
    pyGet_cons_ne "SubChains" (.obj (("SubChain", o) :: irest)) d "ChainId" (by decide),
    pyGet_cons_ne "SubChains" (.obj (("SubChain", .arr [o]) :: irest)) d "ChainId" (by decide),
    pyGet_cons_ne "SubChains" (.obj (("SubChain", o) :: irest)) d "ChainName" (by decide),
    pyGet_cons_ne "SubChains" (.obj (("SubChain", .arr [o]) :: irest)) d "ChainName" (by decide)]

theorem normalize_store_data_stores (d md scirest screst srest : Assoc)
    (pre post : List JVal) (o : JVal) (h : isListJ o = false) :
    normalize_store_data (("SubChains", .obj (("SubChain",
        .arr (pre ++ .obj (("Stores", .obj (("Store", o) :: srest)) :: screst) :: post))
        :: scirest)) :: d) md =
    normalize_store_data (("SubChains", .obj (("SubChain",
        .arr (pre ++ .obj (("Stores", .obj (("Store", .arr [o]) :: srest)) :: screst) :: post))
        :: scirest)) :: d) md := by
  have e1 := nestedList_cons "SubChains" "SubChain"
    (.arr (pre ++ .obj (("Stores", .obj (("Store", o) :: srest)) :: screst) :: post)) scirest d
  have e2 := nestedList_cons "SubChains" "SubChain"
    (.arr (pre ++ .obj (("Stores", .obj (("Store", .arr [o]) :: srest)) :: screst) :: post)) scirest d
  unfold normalize_store_data
  rw [e1, e2]
  show (Except.ok (pre ++ _ :: post) >>= _) = (Except.ok (pre ++ _ :: post) >>= _)
  rw [exceptBind_ok, exceptBind_ok,
    exceptMapM_congr _ _ (pre ++ _ :: post) (fun a _ => normSubChain_data_congr
      (.obj (("SubChain", .arr (pre ++ .obj (("Stores", .obj (("Store", o) :: srest)) :: screst) :: post)) :: scirest))
      (.obj (("SubChain", .arr (pre ++ .obj (("Stores", .obj (("Store", .arr [o]) :: srest)) :: screst) :: post)) :: scirest))
      d a),
    exceptMapM_append_cons_congr _ pre post (normSubChain_stores _ screst srest o h),
    pyGet_cons_ne "SubChains" _ d "ChainId" (by decide),
    pyGet_cons_ne "SubChains" _ d "ChainId" (by decide),
    pyGet_cons_ne "SubChains" _ d "ChainName" (by decide),
    pyGet_cons_ne "SubChains" _ d "ChainName" (by decide)]

/-- C5: the list-normalization invariant.  For each nested upstream
collection field the normalizer handles — items (`Items.Item`), promotions
(`Promotions.Promotion`), promotion items (`PromotionItems.Item`),
sub-chains (`SubChains.SubChain`) and stores (`Stores.Store`) — normalizing
a payload in which the field holds a single bare (non-list) object yields
output identical to normalizing the same payload with the field holding the
one-element list of that object. -/
theorem c5_singleton_list_invariant :
    (∀ (d md irest : Assoc) (o : JVal), isListJ o = false →
       normalize_price_data (("Items", .obj (("Item", o) :: irest)) :: d) md =
       normalize_price_data (("Items", .obj (("Item", .arr [o]) :: irest)) :: d) md) ∧
    (∀ (d md irest : Assoc) (o : JVal), isListJ o = false →
       normalize_promo_data (("Promotions", .obj (("Promotion", o) :: irest)) :: d) md =
       normalize_promo_data (("Promotions", .obj (("Promotion", .arr [o]) :: irest)) :: d) md) ∧
    (∀ (d md orest prest irest : Assoc) (pre post : List JVal) (o : JVal),
       isListJ o = false →
       normalize_promo_data (("Promotions", .obj (("Promotion",
           .arr (pre ++ .obj (("PromotionItems", .obj (("Item", o) :: irest)) :: prest) :: post))
           :: orest)) :: d) md =
       normalize_promo_data (("Promotions", .obj (("Promotion",
           .arr (pre ++ .obj (("PromotionItems", .obj (("Item", .arr [o]) :: irest)) :: prest) :: post))
           :: orest)) :: d) md) ∧
    (∀ (d md irest : Assoc) (o : JVal), isListJ o = false →
       normalize_store_data (("SubChains", .obj (("SubChain", o) :: irest)) :: d) md =
       normalize_store_data (("SubChains", .obj (("SubChain", .arr [o]) :: irest)) :: d) md) ∧
    (∀ (d md scirest screst srest : Assoc) (pre post : List JVal) (o : JVal),
       isListJ o = false →
       normalize_store_data (("SubChains", .obj (("SubChain",
           .arr (pre ++ .obj (("Stores", .obj (("Store", o) :: srest)) :: screst) :: post))
           :: scirest)) :: d) md =
       normalize_store_data (("SubChains", .obj (("SubChain",
           .arr (pre ++ .obj (("Stores", .obj (("Store", .arr [o]) :: srest)) :: screst) :: post))
           :: scirest)) :: d) md) :=
  ⟨normalize_price_data_items, normalize_promo_data_promotions,
   normalize_promo_data_promo_items, normalize_store_data_sub_chains,
   normalize_store_data_stores⟩

/-- Witness for `c5_singleton_list_invariant` at concrete one-field
payloads: each of the five collection fields, bare object versus singleton
list. -/
theorem c5_witness :
    (normalize_price_data [("Items", .obj [("Item", .obj [("ItemCode", .str "1")])])] [] =
     normalize_price_data [("Items", .obj [("Item", .arr [.obj [("ItemCode", .str "1")]])])] []) ∧
    (normalize_promo_data [("Promotions", .obj [("Promotion", .obj [("PromotionId", .str "2")])])] [] =
     normalize_promo_data [("Promotions", .obj [("Promotion", .arr [.obj [("PromotionId", .str "2")]])])] []) ∧
    (normalize_promo_data [("Promotions", .obj [("Promotion",
        .arr [.obj [("PromotionItems", .obj [("Item", .obj [("ItemCode", .str "3")])])]])])] [] =
     normalize_promo_data [("Promotions", .obj [("Promotion",
        .arr [.obj [("PromotionItems", .obj [("Item", .arr [.obj [("ItemCode", .str "3")]])])]])])] []) ∧
    (normalize_store_data [("SubChains", .obj [("SubChain", .obj [("SubChainID", .str "4")])])] [] =
     normalize_store_data [("SubChains", .obj [("SubChain", .arr [.obj [("SubChainID", .str "4")]])])] []) ∧
    (normalize_store_data [("SubChains", .obj [("SubChain",
        .arr [.obj [("Stores", .obj [("Store", .obj [("StoreID", .str "5")])])]])])] [] =
     normalize_store_data [("SubChains", .obj [("SubChain",
        .arr [.obj [("Stores", .obj [("Store", .arr [.obj [("StoreID", .str "5")]])])]])])] []) :=
  ⟨c5_singleton_list_invariant.1 [] [] [] _ rfl,
   c5_singleton_list_invariant.2.1 [] [] [] _ rfl,
   c5_singleton_list_invariant.2.2.1 [] [] [] [] [] [] [] _ rfl,
   c5_singleton_list_invariant.2.2.2.1 [] [] [] _ rfl,
   c5_singleton_list_invariant.2.2.2.2 [] [] [] [] [] [] [] _ rfl⟩

/-! Database upsert claims. -/

/-- C6: upsert frame conditions.  For the `items` statement: conflict is
detected exactly on `(chain_id, store_id, item_code, last_update_date)` —
with no key match the row is appended (its `created_at`/`updated_at` set to
the current timestamp), with a key match no row is added and each
conflicting row is updated by the `DO UPDATE SET` clause; that clause
overwrites only `item_price`, `item_brand`, `item_promotion`,
`item_promotion_price` and `updated_at`, leaving the identity-key columns,
`created_at`, and every other column unchanged, and leaves rows off the
conflict target untouched.  For the `stores` statement the same with key
`(chain_id, store_id)` and mutable columns `store_name`, `address`,
`last_update_date`, `updated_at`. -/
theorem c6_upsert_frame {α : Type} [DecidableEq α] (now : α) :
    (∀ (t : List (ItemRow α)) (v : ItemVals α),
       ((∀ r ∈ t, itemRowKey r ≠ itemValsKey v) →
         upsertItem now t v = t ++ [newItemRow now v]) ∧
       ((∃ r ∈ t, itemRowKey r = itemValsKey v) →
         upsertItem now t v = t.map (applyItemConflict now v) ∧
         (upsertItem now t v).length = t.length)) ∧
    (∀ (r : ItemRow α) (v : ItemVals α), itemRowKey r = itemValsKey v →
       (applyItemConflict now v r).chain_id = r.chain_id ∧
       (applyItemConflict now v r).store_id = r.store_id ∧
       (applyItemConflict now v r).item_code = r.item_code ∧
       (applyItemConflict now v r).last_update_date = r.last_update_date ∧
       (applyItemConflict now v r).created_at = r.created_at ∧
       (applyItemConflict now v r).item_name = r.item_name ∧
       (applyItemConflict now v r).item_unit = r.item_unit ∧
       (applyItemConflict now v r).item_unit_measure = r.item_unit_measure ∧
       (applyItemConflict now v r).item_quantity = r.item_quantity ∧
       (applyItemConflict now v r).item_manufacturer = r.item_manufacturer ∧
       (applyItemConflict now v r).item_category = r.item_category ∧
       (applyItemConflict now v r).item_subcategory = r.item_subcategory ∧
       (applyItemConflict now v r).item_promotion_description = r.item_promotion_description ∧
       (applyItemConflict now v r).last_update_time = r.last_update_time ∧
       (applyItemConflict now v r).item_price = v.item_price ∧
       (applyItemConflict now v r).item_brand = v.item_brand ∧
       (applyItemConflict now v r).item_promotion = v.item_promotion ∧
       (applyItemConflict now v r).item_promotion_price = v.item_promotion_price ∧
       (applyItemConflict now v r).updated_at = now) ∧
    (∀ (r : ItemRow α) (v : ItemVals α), itemRowKey r ≠ itemValsKey v →
       applyItemConflict now v r = r) ∧
    (∀ (t : List (StoreRow α)) (v : StoreVals α),
       ((∀ r ∈ t, storeRowKey r ≠ storeValsKey v) →
         upsertStore now t v = t ++ [newStoreRow now v]) ∧
       ((∃ r ∈ t, storeRowKey r = storeValsKey v) →
         upsertStore now t v = t.map (applyStoreConflict now v) ∧
         (upsertStore now t v).length = t.length)) ∧
    (∀ (r : StoreRow α) (v : StoreVals α), storeRowKey r = storeValsKey v →
       (applyStoreConflict now v r).chain_id = r.chain_id ∧
       (applyStoreConflict now v r).store_id = r.store_id ∧
       (applyStoreConflict now v r).created_at = r.created_at ∧
       (applyStoreConflict now v r).chain_name = r.chain_name ∧
       (applyStoreConflict now v r).sub_chain_id = r.sub_chain_id ∧
       (applyStoreConflict now v r).sub_chain_name = r.sub_chain_name ∧
       (applyStoreConflict now v r).bikoret_no = r.bikoret_no ∧
       (applyStoreConflict now v r).store_type = r.store_type ∧
       (applyStoreConflict now v r).city = r.city ∧
       (applyStoreConflict now v r).zip_code = r.zip_code ∧
       (applyStoreConflict now v r).last_update_time = r.last_update_time ∧
       (applyStoreConflict now v r).store_name = v.store_name ∧
       (applyStoreConflict now v r).address = v.address ∧
       (applyStoreConflict now v r).last_update_date = v.last_update_date ∧
       (applyStoreConflict now v r).updated_at = now) ∧
    (∀ (r : StoreRow α) (v : StoreVals α), storeRowKey r ≠ storeValsKey v →
       applyStoreConflict now v r = r) := by
  refine ⟨?_, ?_, ?_, ?_, ?_, ?_⟩
  · intro t v
    constructor
    · intro h
      have hany : ¬ (t.any (fun r => decide (itemRowKey r = itemValsKey v)) = true) := by
        simp only [List.any_eq_true, decide_eq_true_eq]
        push_neg
        exact h
      unfold upsertItem
      rw [if_neg hany]
    · intro h
      have hany : t.any (fun r => decide (itemRowKey r = itemValsKey v)) = true := by
        simp only [List.any_eq_true, decide_eq_true_eq]
        exact h
      unfold upsertItem
      rw [if_pos hany]
      exact ⟨rfl, List.length_map t _⟩
  · intro r v h
    unfold applyItemConflict
    rw [if_pos h]
    exact ⟨rfl, rfl, rfl, rfl, rfl, rfl, rfl, rfl, rfl, rfl, rfl, rfl, rfl,
      rfl, rfl, rfl, rfl, rfl, rfl⟩
  · intro r v h
    unfold applyItemConflict
    rw [if_neg h]
  · intro t v
    constructor
    · intro h
      have hany : ¬ (t.any (fun r => decide (storeRowKey r = storeValsKey v)) = true) := by
        simp only [List.any_eq_true, decide_eq_true_eq]
        push_neg
        exact h
      unfold upsertStore
      rw [if_neg hany]
    · intro h
      have hany : t.any (fun r => decide (storeRowKey r = storeValsKey v)) = true := by
        simp only [List.any_eq_true, decide_eq_true_eq]
        exact h
      unfold upsertStore
      rw [if_pos hany]
      exact ⟨rfl, List.length_map t _⟩
  · intro r v h
    unfold applyStoreConflict
    rw [if_pos h]
    exact ⟨rfl, rfl, rfl, rfl, rfl, rfl, rfl, rfl, rfl, rfl, rfl, rfl, rfl,
      rfl, rfl⟩
  · intro r v h
    unfold applyStoreConflict
    rw [if_neg h]

/-- An existing `items` row for the `c6_witness`. -/
def c6row : ItemRow String :=
  { chain_id := "7290", store_id := "001", item_code := "11", item_name := "n"
  , item_price := "5.00", item_unit := "u", item_unit_measure := "um"
  , item_quantity := "1", item_manufacturer := "m", item_category := "c"
  , item_subcategory := "sc", item_brand := "b", item_promotion := "f"
  , item_promotion_price := "0", item_promotion_description := "pd"
  , last_update_date := "2025-01-01", last_update_time := "12:00"
  , created_at := "created0", updated_at := "updated0" }

/-- Incoming `items` values sharing `c6row`'s natural key but with a new
price and brand. -/
def c6vals : ItemVals String :=
  { chain_id := "7290", store_id := "001", item_code := "11", item_name := "n2"
  , item_price := "6.90", item_unit := "u2", item_unit_measure := "um2"
  , item_quantity := "2", item_manufacturer := "m2", item_category := "c2"
  , item_subcategory := "sc2", item_brand := "b2", item_promotion := "t"
  , item_promotion_price := "1", item_promotion_description := "pd2"
  , last_update_date := "2025-01-01", last_update_time := "13:00" }

/-- Incoming `stores` values for the insert side of the `c6_witness`. -/
def c6storeVals : StoreVals String :=
  { chain_id := "7290", chain_name := "cn", sub_chain_id := "1"
  , sub_chain_name := "sn", store_id := "001", bikoret_no := "9"
  , store_type := "1", store_name := "s", address := "a", city := "city"
  , zip_code := "z", last_update_date := "2025-01-01"
  , last_update_time := "12:00" }

/-- Witness for `c6_upsert_frame`: upserting values that conflict with the
one existing row keeps the table at one row, preserves `created_at` and
`item_name`, overwrites `item_price`; upserting a store into an empty table
inserts it. -/
theorem c6_witness :
    (upsertItem "now2" [c6row] c6vals).length = 1 ∧
    (applyItemConflict "now2" c6vals c6row).created_at = "created0" ∧
    (applyItemConflict "now2" c6vals c6row).item_name = "n" ∧
    (applyItemConflict "now2" c6vals c6row).item_price = "6.90" ∧
    upsertStore "now2" [] c6storeVals = [newStoreRow "now2" c6storeVals] := by
  have h := c6_upsert_frame (α := String) "now2"
  have hconf := h.2.1 c6row c6vals (by decide)
  refine ⟨?_, hconf.2.2.2.2.1, hconf.2.2.2.2.2.1, ?_, ?_⟩
  · exact ((h.1 [c6row] c6vals).2 ⟨c6row, List.mem_singleton.mpr rfl, by decide⟩).2
  · exact hconf.2.2.2.2.2.2.2.2.2.2.2.2.2.2.1
  · exact (h.2.2.2.1 [] c6storeVals).1 (fun r hr => absurd hr (List.not_mem_nil r))

/-! Numeric-coercion claims. -/

/-- C7, counterexample to the claim as stated: an item whose `ItemPrice` is
present but unparseable ("abc") does not get the 0 default — the `float()`
coercion raises `ValueError`, and normalization of the whole payload fails
(propagating as the per-message `NormalizationError` path) instead of
producing `item_price = 0`. -/
theorem c7_counterexample :
    normalize_price_data
        [("Items", .obj [("Item", .obj [("ItemPrice", .str "abc")])])] [] =
      Except.error "ValueError: could not convert string to float" := rfl

/-- C7, amended: the numeric defaults apply to missing fields only.  When
`ItemPrice`, `Quantity` and `ItemPromotionPrice` are absent the item
normalizes with all three set to 0 (and a missing `ItemPromotion` flag
becomes `false`); when `DiscountedPrice`, `MinQty` and `PromotionItems` are
absent the promotion normalizes with the two numerics 0 (and a missing
`AllowMultipleDiscounts` becomes `false`); a missing `StoreType` becomes
the integer 0.  A present but unparseable value instead raises (see the
counterexample). -/
theorem c7_missing_field_defaults :
    (∀ (it : Assoc) (lut : JVal),
       alookup it "ItemPrice" = none →
       alookup it "Quantity" = none →
       alookup it "ItemPromotionPrice" = none →
       ∃ r : NItem, normPriceItem lut (.obj it) = .ok r ∧
         r.item_price = 0 ∧ r.item_quantity = 0 ∧ r.item_promotion_price = 0 ∧
         (alookup it "ItemPromotion" = none → r.item_promotion = false)) ∧
    (∀ pr : Assoc,
       alookup pr "DiscountedPrice" = none →
       alookup pr "MinQty" = none →
       alookup pr "PromotionItems" = none →
       ∃ r : NPromo, normOnePromotion (.obj pr) = .ok r ∧
         r.discounted_price = 0 ∧ r.min_qty = 0 ∧
         (alookup pr "AllowMultipleDiscounts" = none →
           r.allow_multiple_discounts = false)) ∧
    (∀ (st d scA : Assoc), alookup st "StoreType" = none →
       ∃ r : NStore, normOneStore d scA (.obj st) = .ok r ∧
         r.store_type = 0) := by
  refine ⟨?_, ?_, ?_⟩
  · intro it lut h1 h2 h3
    have g1 : pyGetD it "ItemPrice" (.num 0) = .num 0 := by simp [pyGetD, h1]
    have g2 : pyGetD it "Quantity" (.num 0) = .num 0 := by simp [pyGetD, h2]
    have g3 : pyGetD it "ItemPromotionPrice" (.num 0) = .num 0 := by
      simp [pyGetD, h3]
    refine ⟨{ item_code := pyGet it "ItemCode"
            , item_name := pyGet it "ItemName"
            , item_price := 0
            , item_unit := pyGet it "UnitQty"
            , item_unit_measure := pyGet it "UnitOfMeasure"
            , item_quantity := 0
            , item_manufacturer := pyGet it "ManufacturerName"
            , item_description := pyGet it "ManufacturerItemDescription"
            , item_category := pyGet it "ItemCategory"
            , item_subcategory := pyGet it "ItemSubCategory"
            , item_brand := pyGet it "ItemBrand"
            , item_promotion := pyTruthy (pyGetD it "ItemPromotion" (.bool false))
            , item_promotion_price := 0
            , item_promotion_description := pyGet it "ItemPromotionDescription"
            , manufacture_country := pyGet it "ManufactureCountry"
            , last_update_date := pyGet it "PriceUpdateDate"
            , last_update_time := lut }, ?_, rfl, rfl, rfl, ?_⟩
    · simp only [normPriceItem, asObjE, g1, g2, g3, toFloatE, exceptBind_ok]
      rfl
    · intro h4
      simp [pyGetD, h4, pyTruthy]
  · intro pr h1 h2 h3
    have g1 : pyGetD pr "DiscountedPrice" (.num 0) = .num 0 := by
      simp [pyGetD, h1]
    have g2 : pyGetD pr "MinQty" (.num 0) = .num 0 := by simp [pyGetD, h2]
    have g3 : nestedList pr "PromotionItems" "Item" = Except.ok [] := by
      simp [nestedList, pyGetD, h3, asObjE, exceptBind_ok]
      rfl
    refine ⟨{ promotion_id := pyGet pr "PromotionId"
            , promotion_description := pyGet pr "PromotionDescription"
            , promotion_update_date := pyGet pr "PromotionUpdateDate"
            , promotion_start_date := pyGet pr "PromotionStartDate"
            , promotion_end_date := pyGet pr "PromotionEndDate"
            , discounted_price := 0
            , min_qty := 0
            , reward_type := pyGet pr "RewardType"
            , allow_multiple_discounts :=
                pyTruthy (pyGetD pr "AllowMultipleDiscounts" (.bool false))
            , items := [] }, ?_, rfl, rfl, ?_⟩
    · simp only [normOnePromotion, asObjE, g1, g2, g3, toFloatE, exceptBind_ok]
      rfl
    · intro h4
      simp [pyGetD, h4, pyTruthy]
  · intro st d scA h
    have hg : pyGetD st "StoreType" (.num 0) = .num 0 := by simp [pyGetD, h]
    refine ⟨{ sub_chain_id := pyGet scA "SubChainID"
            , sub_chain_name := pyGet scA "SubChainName"
            , store_id := pyGet st "StoreID"
            , bikoret_no := pyGet st "BikoretNo"
            , store_type := 0
            , store_name := pyGet st "StoreName"
            , address := pyGet st "Address"
            , city := pyGet st "City"
            , zip_code := pyGet st "ZipCode"
            , last_update_date := pyGet d "LastUpdateDate"
            , last_update_time := pyGet d "LastUpdateTime" }, ?_, rfl⟩
    simp only [normOneStore, asObjE, hg, toIntE, exceptBind_ok]
    rfl

/-- Witness for `c7_missing_field_defaults` at empty dicts: every default
fires. -/
theorem c7_witness :
    (∃ r : NItem, normPriceItem .null (.obj []) = .ok r ∧
       r.item_price = 0 ∧ r.item_promotion = false) ∧
    (∃ r : NPromo, normOnePromotion (.obj []) = .ok r ∧
       r.discounted_price = 0 ∧ r.allow_multiple_discounts = false) ∧
    (∃ r : NStore, normOneStore [] [] (.obj []) = .ok r ∧ r.store_type = 0) := by
  refine ⟨?_, ?_, ?_⟩
  · obtain ⟨r, he, hp, _, _, hb⟩ := c7_missing_field_defaults.1 [] .null rfl rfl rfl
    exact ⟨r, he, hp, hb rfl⟩
  · obtain ⟨r, he, hd, _, hb⟩ := c7_missing_field_defaults.2.1 [] rfl rfl rfl
    exact ⟨r, he, hd, hb rfl⟩
  · exact c7_missing_field_defaults.2.2 [] [] [] rfl
